import Mathlib

/-!
Verification development for the RRC API service (Django, `api/views.py`,
`api/urls.py`, `api/models.py`).

The embedding models:
  * wire values (parsed JSON scalars plus Python `datetime`, since the code
    branches on `isinstance(value, datetime)`),
  * the `SyncDataView.post` bulk-replace pipeline with its three insertion
    strategies (`_postgresql_copy_insert`, `_values_bulk_insert`,
    `_fallback_executemany`) and `_ultra_fast_truncate`,
  * the PostgreSQL-side transaction behaviour that the raw SQL relies on
    (implicit transaction per connection, statement errors aborting the
    open transaction, raw `BEGIN`/`COMMIT` interacting with
    `transaction.atomic`),
  * the cached read views (`GetClientsView`, `GetAllClientsView`,
    `GetMasterView`, `GetAllMasterView`, `GetAllProductsView`) and the
    in-process cache (`django.core.cache`), with wall-clock time as a
    natural number of seconds,
  * the URL table of `api/urls.py`.

Environmental behaviour that the repository code depends on (PostgreSQL
statement semantics, the cache store, Python `str`/`hash`) is modelled by
small executable functions; each such model is marked in its doc comment.
-/

/-- Python `datetime` value (naive, no timezone), as far as the code under
`api/views.py` inspects it: the `strftime` fields. -/
structure DTime where
  year : Nat
  month : Nat
  day : Nat
  hour : Nat
  minute : Nat
  second : Nat
deriving DecidableEq, Repr

/-- Scalar wire value of a record field: what `json.loads` can produce for a
scalar (null, string, number, bool) plus `datetime`, which
`SyncDataView` explicitly tests for with `isinstance(value, datetime)`.
Numerics are modelled by exact integers (the fixed-point `numeric` database
columns are exact, representable integrally in units of their smallest
decimal step; `float` serialization of `Decimal` values is treated as
exact). -/
inductive Value where
  | vNull
  | vStr (s : String)
  | vInt (n : Int)
  | vBool (b : Bool)
  | vDatetime (dt : DTime)
deriving DecidableEq, Repr

/-- Zero-pad a number to two digits, as `strftime` does for `%m %d %H %M %S`. -/
def pad2 (n : Nat) : String := if n < 10 then "0" ++ toString n else toString n

/-- Zero-pad a number to four digits, as `strftime` does for `%Y`. -/
def pad4 (n : Nat) : String :=
  if n < 10 then "000" ++ toString n
  else if n < 100 then "00" ++ toString n
  else if n < 1000 then "0" ++ toString n
  else toString n

/-- Model of Python `value.strftime('%Y-%m-%d')`. -/
def fmtYMD (dt : DTime) : String :=
  pad4 dt.year ++ "-" ++ pad2 dt.month ++ "-" ++ pad2 dt.day

/-- Model of Python `value.strftime('%Y-%m-%d %H:%M:%S')` (used by
`_postgresql_copy_insert`). -/
def fmtYMDHMS (dt : DTime) : String :=
  fmtYMD dt ++ " " ++ pad2 dt.hour ++ ":" ++ pad2 dt.minute ++ ":" ++ pad2 dt.second

/-- Decimal digit as a character (`0 ≤ d < 10`). -/
def digitCh (d : Nat) : Char := Char.ofNat (48 + d)

/-- Model of Python `str(n)` for a natural number: decimal digits, most
significant first. -/
def pyStrNat (n : Nat) : String :=
  if n = 0 then "0" else String.mk (((Nat.digits 10 n).map digitCh).reverse)

/-- Model of Python `str(n)` for an `int`. -/
def pyStrInt (n : Int) : String :=
  if n < 0 then "-" ++ pyStrNat n.natAbs else pyStrNat n.natAbs

/-- Model of Python `str(value)` as used by the COPY path for values that are
neither `None`, `datetime` nor `str`. -/
def pyStr : Value → String
  | .vNull => "None"
  | .vStr s => s
  | .vInt n => pyStrInt n
  | .vBool b => if b then "True" else "False"
  | .vDatetime dt => fmtYMDHMS dt

/-- Is `c` a decimal digit character. -/
def isDigitCh (c : Char) : Bool := 48 ≤ c.toNat && c.toNat ≤ 57

/-- Numeric value of a digit character. -/
def chDigit (c : Char) : Nat := c.toNat - 48

/-- Model of the PostgreSQL input parser for an integer column receiving the
given text (digits only; anything else is a type error, `none`). -/
def parseNatChars (l : List Char) : Option Nat :=
  if !l.isEmpty && l.all isDigitCh then
    some (Nat.ofDigits 10 ((l.map chDigit).reverse))
  else none

/-- Model of the PostgreSQL input parser for `int`/`numeric` columns fed by
COPY text (integral literals with an optional sign; the embedding restricts
numeric columns to integral values). -/
def parseIntChars (l : List Char) : Option Int :=
  match l with
  | '-' :: rest => (parseNatChars rest).map (fun m => -(m : Int))
  | _ => (parseNatChars l).map (fun m => (m : Int))

/-- Single-character escape used by `_postgresql_copy_insert`: the effect of
the chained
`value.replace('\\','\\\\').replace('\t','\\t').replace('\n','\\n').replace('\r','\\r')`
on one character (the chain commutes to a single character-wise pass because
each replacement output contains none of the later patterns). -/
def copyEscapeChar (c : Char) : List Char :=
  if c = '\\' then ['\\', '\\']
  else if c = '\t' then ['\\', 't']
  else if c = '\n' then ['\\', 'n']
  else if c = '\r' then ['\\', 'r']
  else [c]

/-- COPY text-format escaping of a whole string, character by character. -/
def copyEscapeList : List Char → List Char
  | [] => []
  | c :: cs => copyEscapeChar c ++ copyEscapeList cs

/-- Escaped form of a string field for COPY, as built by
`_postgresql_copy_insert`. -/
def copyEscape (s : String) : String := String.mk (copyEscapeList s.data)

/-- Model of the PostgreSQL COPY text-format reader undoing backslash
escapes in one field. -/
def copyUnescapeList : List Char → List Char
  | [] => []
  | '\\' :: c :: cs =>
      (if c = 't' then '\t'
       else if c = 'n' then '\n'
       else if c = 'r' then '\r'
       else c) :: copyUnescapeList cs
  | c :: cs => c :: copyUnescapeList cs

/-- Wire record: a JSON object as an ordered association list from column
name to scalar value, mirroring a parsed Python dict (keys unique, insertion
order preserved). -/
abbrev Record := List (String × Value)

/-- Model of Python `record.get(col)` followed by the `value is None` check:
a missing key behaves exactly like an explicit null. -/
def Record.get (r : Record) (c : String) : Value :=
  match r.find? (fun p => p.1 == c) with
  | some p => p.2
  | none => .vNull

/-- Database tables, keyed by table name, each holding its rows as records
(the embedding keeps rows keyed by column name rather than positional). -/
abbrev Tables := List (String × List Record)

/-- Contents of a named table (a table that was never written is empty). -/
def Tables.getTable (ts : Tables) (name : String) : List Record :=
  match ts.find? (fun p => p.1 == name) with
  | some p => p.2
  | none => []

/-- Replace the contents of a named table. -/
def Tables.setTable : Tables → String → List Record → Tables
  | [], n, t => [(n, t)]
  | (m, u) :: rest, n, t =>
      if m == n then (n, t) :: rest else (m, u) :: Tables.setTable rest n t

/-- Fuel-driven worker for `chunks`. -/
def chunksGo (n : Nat) : Nat → List α → List (List α)
  | 0, _ => []
  | _, [] => []
  | fuel + 1, l => l.take n :: chunksGo n fuel (l.drop n)

/-- Model of the Python batching loop
`for i in range(0, len(records), batch_size): batch = records[i:i+batch_size]`:
the list of consecutive slices of size `n` (the last one possibly shorter). -/
def chunks (n : Nat) (l : List α) : List (List α) := chunksGo n l.length l

/-- Option-valued map over a list, `none` as soon as one element fails
(models psycopg2 ingesting COPY rows one at a time and failing on the first
bad row). -/
def optMapList (f : α → Option β) : List α → Option (List β)
  | [] => some []
  | a :: as =>
      match f a, optMapList f as with
      | some b, some bs => some (b :: bs)
      | _, _ => none

/-- Column type as far as the embedding distinguishes: text-like columns
(char/text/date, stored and surfaced as text) and integral numeric columns
(`IntegerField`/`DecimalField`, restricted to integral values). -/
inductive ColTy where
  | tText
  | tInt
deriving DecidableEq, Repr

/-- Column typing of the three synced tables, from `api/models.py`:
`rrc_clients.priorty/clients/sp/amcamt` and
`acc_master.opening_balance/debit/credit` are numeric, everything else is
text-like. -/
def colTy (table col : String) : ColTy :=
  if table = "rrc_clients" ∧ (col = "priorty" ∨ col = "clients" ∨ col = "sp" ∨ col = "amcamt")
  then .tInt
  else if table = "acc_master" ∧ (col = "opening_balance" ∨ col = "debit" ∨ col = "credit")
  then .tInt
  else .tText

/-- Does a wire value fit a column of the given type (a null fits anywhere). -/
def valueConforms (ty : ColTy) (v : Value) : Bool :=
  match ty, v with
  | _, .vNull => true
  | .tText, .vStr _ => true
  | .tInt, .vInt _ => true
  | _, _ => false

/-- Every field of the record fits its column type in table `tn`. -/
def recordConforms (tn : String) (r : Record) : Bool :=
  r.all (fun p => valueConforms (colTy tn p.1) p.2)

/-- One rendered COPY field, exactly the branch ladder of
`_postgresql_copy_insert`: `None ↦ '\N'`, `datetime ↦ strftime('%Y-%m-%d %H:%M:%S')`,
`str ↦ escaped`, everything else `str(value)`. -/
def copyRenderField (v : Value) : String :=
  match v with
  | .vNull => "\\N"
  | .vDatetime dt => fmtYMDHMS dt
  | .vStr s => copyEscape s
  | v => pyStr v

/-- One COPY data row: the fields for each column, in column order
(`record.get(col)` per column; the code then joins them with tabs and a
trailing newline, which the COPY reader splits back). -/
def copyRenderRow (cols : List String) (r : Record) : List String :=
  cols.map (fun c => copyRenderField (r.get c))

/-- Model of the PostgreSQL COPY text reader for one field of a column of
type `ty`: `\N` is NULL, otherwise the unescaped text, parsed per column
type (`none` = type error, failing the COPY statement). -/
def copyParseField (ty : ColTy) (s : String) : Option Value :=
  if s = "\\N" then some .vNull
  else
    match ty with
    | .tText => some (.vStr (String.mk (copyUnescapeList s.data)))
    | .tInt => (parseIntChars (copyUnescapeList s.data)).map Value.vInt

/-- Ingest one COPY row into a stored record for table `tn`. -/
def copyIngestRow (tn : String) (cols : List String) (fields : List String) :
    Option Record :=
  optMapList (fun p => (copyParseField (colTy tn p.1) p.2).map (fun v => (p.1, v)))
    (cols.zip fields)

/-- Rows as stored by the COPY strategy: render each record to its COPY text
line and ingest it back through the COPY reader (`none` when any field fails
to parse for its column type, which fails the whole COPY statement). -/
def copyInsertRows (tn : String) (cols : List String) (records : List Record) :
    Option (List Record) :=
  optMapList (fun r => copyIngestRow tn cols (copyRenderRow cols r)) records

/-- A rendered piece of a multi-row `VALUES` clause in `_values_bulk_insert`:
either the literal SQL `NULL` or a `%s` placeholder with its parameter. -/
inductive SqlPiece where
  | nullLit
  | param (v : Value)
deriving DecidableEq, Repr

/-- Value rendering of `_values_bulk_insert`: `None ↦ NULL` literal,
`datetime ↦ strftime('%Y-%m-%d')` parameter, everything else is passed as a
parameter unchanged. -/
def valuesRender (v : Value) : SqlPiece :=
  match v with
  | .vNull => .nullLit
  | .vDatetime dt => .param (.vStr (fmtYMD dt))
  | v => .param v

/-- The stored column value that a rendered VALUES piece produces. -/
def sqlPieceValue : SqlPiece → Value
  | .nullLit => .vNull
  | .param v => v

/-- Rows as stored by the VALUES strategy. -/
def valuesInsertRows (cols : List String) (records : List Record) : List Record :=
  records.map (fun r => cols.map (fun c => (c, sqlPieceValue (valuesRender (r.get c)))))

/-- Value rendering of `_fallback_executemany`: `None ↦ None` (SQL NULL
parameter), `datetime ↦ strftime('%Y-%m-%d')`, everything else unchanged. -/
def executemanyRender (v : Value) : Value :=
  match v with
  | .vNull => .vNull
  | .vDatetime dt => .vStr (fmtYMD dt)
  | v => v

/-- Rows as stored by the executemany strategy. -/
def executemanyInsertRows (cols : List String) (records : List Record) : List Record :=
  records.map (fun r => cols.map (fun c => (c, executemanyRender (r.get c))))

/-- Does `needle` occur as a contiguous run inside `hay` (both char lists). -/
def leadsWith [DecidableEq α] : List α → List α → Bool
  | [], _ => true
  | _ :: _, [] => false
  | a :: as, b :: bs => a = b && leadsWith as bs

/-- Contiguous-substring test used to model SQL `ILIKE '%needle%'`. -/
def hasSub [DecidableEq α] (needle : List α) : List α → Bool
  | [] => leadsWith needle []
  | b :: rest =>
      leadsWith needle (b :: rest) || hasSub needle rest

/-- Model of `column ILIKE %s` with pattern `'%' + term + '%'`:
case-insensitive substring match on text, and SQL-false on NULL or non-text
(the searched columns are all text columns). -/
def ilike (hay : Value) (term : String) : Bool :=
  match hay with
  | .vStr s => hasSub term.toLower.data s.toLower.data
  | _ => false

/-- Client search condition of `GetClientsView._fetch_clients_optimized` and
`GetAllClientsView`: no condition when the search string is empty (the code
only appends the `ILIKE` clause `if search:`), otherwise
`name ILIKE %s OR code ILIKE %s OR district ILIKE %s`. -/
def clientsWhere (search : String) (r : Record) : Bool :=
  if search = "" then true
  else ilike (r.get "name") search || ilike (r.get "code") search ||
       ilike (r.get "district") search

/-- Numeric reading of a stored column value for SQL arithmetic; non-numeric
stored values cannot occur in a numeric column and read as NULL. -/
def numOf : Value → Option Int
  | .vInt n => some n
  | _ => none

/-- Model of SQL `COALESCE(col, 0)` over a stored value. -/
def coalesceNum (v : Value) : Int := (numOf v).getD 0

/-- The computed master balance
`COALESCE(opening_balance,0) + COALESCE(debit,0) - COALESCE(credit,0)`. -/
def balanceOf (r : Record) : Int :=
  coalesceNum (r.get "opening_balance") + coalesceNum (r.get "debit")
    - coalesceNum (r.get "credit")

/-- Master search-and-balance condition of the master views: the standing
`balance > 0` filter, plus `name/code/place ILIKE` when a search term is
given. -/
def masterWhere (search : String) (r : Record) : Bool :=
  decide (0 < balanceOf r) &&
    (if search = "" then true
     else ilike (r.get "name") search || ilike (r.get "code") search ||
          ilike (r.get "place") search)

/-- Product filter of `GetAllProductsView`: independently optional search
(`name/code`), `catagory`, `company` and `brand` ILIKE conditions, ANDed. -/
def productsWhere (search category company brand : String) (r : Record) : Bool :=
  (if search = "" then true
   else ilike (r.get "name") search || ilike (r.get "code") search) &&
  (if category = "" then true else ilike (r.get "catagory") category) &&
  (if company = "" then true else ilike (r.get "company") company) &&
  (if brand = "" then true else ilike (r.get "brand") brand)

/-- Sort key for `ORDER BY "name"`: the text of the name column (NULL and
non-text sort with key `""`; only the induced permutation matters here). -/
def nameKeyStr (r : Record) : String :=
  match r.get "name" with
  | .vStr s => s
  | _ => ""

/-- Insert one record into a name-sorted list (stable insertion sort, used as
the model of `ORDER BY "name"`). -/
def insertByName (r : Record) : List Record → List Record
  | [] => [r]
  | x :: xs =>
      if nameKeyStr x < nameKeyStr r then x :: insertByName r xs else r :: x :: xs

/-- Model of `ORDER BY "name"`: sort the filtered rows by name. -/
def sortByName (l : List Record) : List Record := l.foldr insertByName []

/-- The 20 client columns selected by the client read views. -/
def clientColumns : List String :=
  ["code", "name", "address", "branch", "district", "state",
   "software", "mobile", "installationdate", "priorty",
   "directdealing", "rout", "amc", "amcamt", "accountcode",
   "address3", "lictype", "clients", "sp", "nature"]

/-- The 9 master columns selected by the master read views (the computed
`balance` column is appended separately). -/
def masterColumns : List String :=
  ["code", "name", "super_code", "opening_balance", "debit",
   "credit", "place", "phone2", "openingdepartment"]

/-- The 9 product columns selected by `GetAllProductsView`. -/
def productColumns : List String :=
  ["code", "name", "catagory", "unit", "taxcode",
   "company", "product", "brand", "text6"]

/-- Columns of each synced table (used to state what a full record is). -/
def tableColumns (tn : String) : List String :=
  if tn = "rrc_clients" then clientColumns
  else if tn = "acc_master" then masterColumns
  else if tn = "acc_product" then productColumns
  else []

/-- Date-to-text conversion that the client views apply to
`record['installationdate']` when the stored value is a date object
(`hasattr(..., 'isoformat')`); date objects render as `YYYY-MM-DD`. -/
def isoDate : Value → Value
  | .vDatetime dt => .vStr (fmtYMD dt)
  | v => v

/-- Build the emitted client record: `dict(zip(columns, row))` over the
selected columns, then the `installationdate` isoformat conversion. -/
def clientEmit (r : Record) : Record :=
  (clientColumns.map (fun c => (c, r.get c))).map
    (fun p => if p.1 = "installationdate" then (p.1, isoDate p.2) else p)

/-- Build the emitted master record: the 9 selected columns plus the computed
`balance` column (`Decimal`-to-`float` conversion is modelled as exact). -/
def masterEmit (r : Record) : Record :=
  (masterColumns.map (fun c => (c, r.get c))) ++ [("balance", Value.vInt (balanceOf r))]

/-- Build the emitted product record: `dict(zip(columns, row))`. -/
def productEmit (r : Record) : Record :=
  productColumns.map (fun c => (c, r.get c))

/-- Pagination block returned by the paginated views. -/
structure Pagination where
  current_page : Nat
  page_size : Nat
  total_records : Nat
  total_pages : Nat
  has_next : Bool
  has_previous : Bool
deriving DecidableEq, Repr

/-- The `OFFSET` computed by the paginated fetches: `(page - 1) * page_size`
over the page size they receive (which the views clamp beforehand). -/
def queryOffset (page pageSize : Nat) : Nat := (page - 1) * pageSize

/-- The `total_pages = (total_records + page_size - 1) // page_size`
computation of the paginated fetches. -/
def totalPagesOf (total pageSize : Nat) : Nat := (total + pageSize - 1) / pageSize

/-- Result dict of `GetClientsView._fetch_clients_optimized`. -/
structure ClientsFetch where
  success : Bool
  data : List Record
  pagination : Pagination
  records_on_page : Nat
deriving DecidableEq, Repr

/-- Model of `GetClientsView._fetch_clients_optimized`: count and page the
filtered rows, ordered by name, and emit the selected columns with the
`installationdate` conversion. -/
def fetchClientsOptimized (tbl : List Record) (page pageSize : Nat)
    (search : String) : ClientsFetch :=
  let rows := tbl.filter (clientsWhere search)
  let total_records := rows.length
  let offset := queryOffset page pageSize
  let pageRows := (((sortByName rows).drop offset).take pageSize).map clientEmit
  let total_pages := totalPagesOf total_records pageSize
  { success := true
    data := pageRows
    pagination :=
      { current_page := page
        page_size := pageSize
        total_records := total_records
        total_pages := total_pages
        has_next := decide (page < total_pages)
        has_previous := decide (1 < page) }
    records_on_page := pageRows.length }

/-- Result dict of the unpaginated views (`GetAllClientsView`,
`GetAllMasterView`): all matching rows plus their count. -/
structure AllResult where
  success : Bool
  data : List Record
  total_records : Nat
deriving DecidableEq, Repr

/-- Model of `GetAllClientsView.get`: every matching client row, ordered by
name (the code issues one of two query strings depending on whether a search
term is present; both are the `clientsWhere` filter). -/
def getAllClientsView (tbl : List Record) (search : String) : AllResult :=
  let results := (sortByName (tbl.filter (clientsWhere search))).map clientEmit
  { success := true, data := results, total_records := results.length }

/-- Result dict of `GetMasterView._fetch_master_optimized`. -/
structure MasterFetch where
  success : Bool
  data : List Record
  pagination : Pagination
  records_on_page : Nat
deriving DecidableEq, Repr

/-- Model of `GetMasterView._fetch_master_optimized`: the standing
`balance > 0` filter plus search, ordered by name, paged, each row emitted
with the computed `balance` column. -/
def fetchMasterOptimized (tbl : List Record) (page pageSize : Nat)
    (search : String) : MasterFetch :=
  let rows := tbl.filter (masterWhere search)
  let total_records := rows.length
  let offset := queryOffset page pageSize
  let pageRows := (((sortByName rows).drop offset).take pageSize).map masterEmit
  let total_pages := totalPagesOf total_records pageSize
  { success := true
    data := pageRows
    pagination :=
      { current_page := page
        page_size := pageSize
        total_records := total_records
        total_pages := total_pages
        has_next := decide (page < total_pages)
        has_previous := decide (1 < page) }
    records_on_page := pageRows.length }

/-- Model of `GetAllMasterView.get`: every master row with `balance > 0`,
ordered by name, each with the computed `balance` column. -/
def getAllMasterView (tbl : List Record) (search : String) : AllResult :=
  let results := (sortByName (tbl.filter (masterWhere search))).map masterEmit
  { success := true, data := results, total_records := results.length }

/-- Result dict cached and returned by `GetAllProductsView`. -/
structure ProductsFetch where
  success : Bool
  data : List Record
  total_records : Nat
deriving DecidableEq, Repr

/-- Model of the database part of `GetAllProductsView.get`: the filtered
product rows ordered by name. -/
def fetchProducts (tbl : List Record) (search category company brand : String) :
    ProductsFetch :=
  let results :=
    (sortByName (tbl.filter (productsWhere search category company brand))).map productEmit
  { success := true, data := results, total_records := results.length }

/-- A value stored in the Django cache: one of the cached result payloads, or
a `last_updated` timestamp (seconds). -/
inductive CacheVal where
  | clientsPage (d : ClientsFetch)
  | masterPage (d : MasterFetch)
  | productsAll (d : ProductsFetch)
  | time (t : Nat)
deriving DecidableEq, Repr

/-- The cache store: key-value pairs. The backend timeout passed to
`cache.set` is recorded but the locmem backend's own eviction is not
modelled (entries only disappear through `cache.clear()`); the views'
explicit freshness check is what the claims are about. -/
abbrev CacheStore := List (String × CacheVal)

/-- Model of `cache.get(key)`. -/
def cacheGet (st : CacheStore) (k : String) : Option CacheVal :=
  match st.find? (fun p => p.1 == k) with
  | some p => some p.2
  | none => none

/-- Model of `cache.set(key, value, timeout)`; replaces the key. -/
def cacheSet : CacheStore → String → CacheVal → Nat → CacheStore
  | [], k, v, _ => [(k, v)]
  | (m, u) :: rest, k, v, t =>
      if m == k then (k, v) :: rest else (m, u) :: cacheSet rest k v t

/-- Model of `cache.clear()`. -/
def cacheClear (_ : CacheStore) : CacheStore := []

/-- Model of Python `hash(term)` as used inside cache keys: an injective
digest stands in for the integer hash (collisions are not modelled). -/
def pyHash (s : String) : String := s

/-- The cache key of `GetClientsView` for one page:
`f'rrc_clients_v2_p{page}_s{page_size}_{hash(search)}'`. -/
def clientsCacheKey (page pageSize : Nat) (search : String) : String :=
  "rrc_clients_v2_p" ++ toString page ++ "_s" ++ toString pageSize ++ "_" ++ pyHash search

/-- The `last_updated` cache key of `GetClientsView`. -/
def clientsLastUpdatedKey : String := "rrc_clients_last_updated_v2"

/-- The cache key of `GetMasterView` for one page. -/
def masterCacheKey (page pageSize : Nat) (search : String) : String :=
  "acc_master_v2_p" ++ toString page ++ "_s" ++ toString pageSize ++ "_"
    ++ pyHash search ++ "_balance_gt_0"

/-- The `last_updated` cache key of `GetMasterView`. -/
def masterLastUpdatedKey : String := "acc_master_last_updated_v2_balance_gt_0"

/-- The cache key of `GetAllProductsView` for one filter combination. -/
def productsCacheKey (search category company brand : String) : String :=
  "acc_product_v2_" ++ pyHash search ++ "_" ++ pyHash category ++ "_"
    ++ pyHash company ++ "_" ++ pyHash brand

/-- The `last_updated` cache key of `GetAllProductsView`. -/
def productsLastUpdatedKey : String := "acc_product_last_updated_v2"

/-- Response of a cached paginated view: the payload plus the `from_cache`
marker the code adds. -/
structure CachedResp (β : Type) where
  body : β
  from_cache : Bool
deriving DecidableEq, Repr

/-- Model of `GetClientsView.get`: clamp the page size to 5000, check the
cached page and the table-wide `last_updated` stamp for freshness
(`datetime.now() - last_updated < timedelta(minutes=ttlMin)`, times in
seconds), serve the cached payload on a hit, otherwise fetch fresh and store
both keys. `ttlMin` is `settings.CLIENT_DATA_CACHE_MINUTES` (15 in
`rrc/settings.py`, `getattr` default 30). -/
def getClientsView (now : Nat) (st : CacheStore) (tbl : List Record)
    (page pageSizeReq : Nat) (search : String) (ttlMin : Nat) :
    CachedResp ClientsFetch × CacheStore :=
  let page_size := min pageSizeReq 5000
  let ck := clientsCacheKey page page_size search
  let fresh := fetchClientsOptimized tbl page page_size search
  let stored :=
    cacheSet (cacheSet st ck (.clientsPage fresh) (ttlMin * 60))
      clientsLastUpdatedKey (.time now) (ttlMin * 60)
  let missR := ({ body := fresh, from_cache := false }, stored)
  match cacheGet st ck, cacheGet st clientsLastUpdatedKey with
  | some (.clientsPage d), some (.time t0) =>
      if now - t0 < ttlMin * 60 then ({ body := d, from_cache := true }, st)
      else missR
  | _, _ => missR

/-- Model of `GetMasterView.get`, the cached paginated master view; `ttlMin`
is `settings.MASTER_DATA_CACHE_MINUTES` (`getattr` default 30). -/
def getMasterView (now : Nat) (st : CacheStore) (tbl : List Record)
    (page pageSizeReq : Nat) (search : String) (ttlMin : Nat) :
    CachedResp MasterFetch × CacheStore :=
  let page_size := min pageSizeReq 5000
  let ck := masterCacheKey page page_size search
  let fresh := fetchMasterOptimized tbl page page_size search
  let stored :=
    cacheSet (cacheSet st ck (.masterPage fresh) (ttlMin * 60))
      masterLastUpdatedKey (.time now) (ttlMin * 60)
  let missR := ({ body := fresh, from_cache := false }, stored)
  match cacheGet st ck, cacheGet st masterLastUpdatedKey with
  | some (.masterPage d), some (.time t0) =>
      if now - t0 < ttlMin * 60 then ({ body := d, from_cache := true }, st)
      else missR
  | _, _ => missR

/-- Model of `GetAllProductsView.get`, the cached unpaginated products view;
`ttlMin` is `settings.PRODUCT_DATA_CACHE_MINUTES` (`getattr` default 15). -/
def getAllProductsView (now : Nat) (st : CacheStore) (tbl : List Record)
    (search category company brand : String) (ttlMin : Nat) :
    CachedResp ProductsFetch × CacheStore :=
  let ck := productsCacheKey search category company brand
  let fresh := fetchProducts tbl search category company brand
  let stored :=
    cacheSet (cacheSet st ck (.productsAll fresh) (ttlMin * 60))
      productsLastUpdatedKey (.time now) (ttlMin * 60)
  let missR := ({ body := fresh, from_cache := false }, stored)
  match cacheGet st ck, cacheGet st productsLastUpdatedKey with
  | some (.productsAll d), some (.time t0) =>
      if now - t0 < ttlMin * 60 then ({ body := d, from_cache := true }, st)
      else missR
  | _, _ => missR

/-- State of the one database connection that the raw-SQL views share:
the durably committed tables, and the currently open implicit transaction
(psycopg2 in non-autocommit mode opens one at the first statement), with its
working snapshot and its PostgreSQL aborted flag. -/
structure Db where
  committed : Tables
  txnOpen : Bool
  working : Tables
  aborted : Bool
deriving DecidableEq, Repr

/-- Open a connection with no transaction in progress (the state between
requests). -/
def Db.fresh (ts : Tables) : Db :=
  { committed := ts, txnOpen := false, working := ts, aborted := false }

/-- Ensure a transaction is open: psycopg2 implicitly begins one at the first
statement if none is open. -/
def Db.ensureTxn (db : Db) : Db :=
  if db.txnOpen then db
  else { db with txnOpen := true, working := db.committed, aborted := false }

/-- Model of `BEGIN` sent through `cursor.execute`: opens a transaction if
none is open; inside an open transaction PostgreSQL only warns. -/
def Db.beginStmt (db : Db) : Db := db.ensureTxn

/-- Model of `COMMIT` sent through `cursor.execute` (also what
`transaction.atomic` runs on success): makes the working snapshot durable;
committing an aborted transaction acts as a rollback. -/
def Db.commitStmt (db : Db) : Db :=
  let d := db.ensureTxn
  if d.aborted then { d with txnOpen := false, aborted := false }
  else { d with committed := d.working, txnOpen := false, aborted := false }

/-- Model of `ROLLBACK` (what `transaction.atomic` runs when the block exits
with an exception): discard the open transaction. -/
def Db.rollback (db : Db) : Db := { db with txnOpen := false, aborted := false }

/-- Execute one mutating SQL statement. `fails` injects a storage failure for
this statement; `abortsOnError` is whether a failed statement poisons the
open transaction (true on PostgreSQL, where every later statement in the
transaction then fails too). Returns the new state and whether the statement
succeeded (false = the Python layer sees an exception). -/
def Db.execMut (db : Db) (fails abortsOnError : Bool) (f : Tables → Tables) :
    Db × Bool :=
  let d := db.ensureTxn
  if d.aborted then (d, false)
  else if fails then
    (if abortsOnError then ({ d with aborted := true }, false) else (d, false))
  else ({ d with working := f d.working }, true)

/-- Environment of one sync request: which engine is configured
(`'postgresql' in connection.settings_dict['ENGINE']`, which also determines
whether a failed statement aborts the transaction) and which statements the
storage layer fails. Failures are injected per strategy: a strategy's flag
makes its (first) insert statement raise. -/
structure Env where
  engineIsPostgres : Bool
  truncateFails : Bool
  copyFails : Bool
  valuesFails : Bool
  executemanyFails : Bool
deriving DecidableEq, Repr

/-- Model of `SyncDataView._ultra_fast_truncate`: inside the caller's atomic
block it sends raw `BEGIN` (a warning no-op, a transaction is open), then
`TRUNCATE`, then raw `COMMIT` — which commits the enclosing atomic
transaction. On a truncate error the fallback `DELETE FROM` runs and the
original exception is re-raised (`raise`), so the helper still fails.
Returns the state and whether it completed without raising. -/
def ultraFastTruncate (env : Env) (db : Db) (t : String) : Db × Bool :=
  let db1 := db.beginStmt
  let r2 := db1.execMut env.truncateFails env.engineIsPostgres
    (fun ts => ts.setTable t [])
  if r2.2 then (r2.1.commitStmt, true)
  else
    let r3 := r2.1.execMut false env.engineIsPostgres (fun ts => ts.setTable t [])
    (r3.1, false)

/-- Append rows to table `t` with one insert statement. -/
def Db.insertRows (db : Db) (fails abortsOnError : Bool) (t : String)
    (rows : List Record) : Db × Bool :=
  db.execMut fails abortsOnError
    (fun ts => ts.setTable t (ts.getTable t ++ rows))

/-- Model of `SyncDataView._fallback_executemany`: batches of 1000 through
`executemany`, counting `total_inserted` batch by batch; `none` means the
strategy raised and the exception propagates. -/
def fallbackExecutemany (env : Env) (db : Db) (t : String) (cols : List String)
    (records : List Record) : Db × Option Nat :=
  let batches := chunks 1000 records
  let rows := (batches.map (executemanyInsertRows cols)).flatten
  let r := db.insertRows env.executemanyFails env.engineIsPostgres t rows
  if r.2 then (r.1, some ((batches.map List.length).sum))
  else (r.1, none)

/-- Model of `SyncDataView._values_bulk_insert`: batches of 2000 as multi-row
`INSERT ... VALUES`, counting `total_inserted` batch by batch; on an insert
error it falls back to `_fallback_executemany` with all the records. -/
def valuesBulkInsert (env : Env) (db : Db) (t : String) (cols : List String)
    (records : List Record) : Db × Option Nat :=
  let batches := chunks 2000 records
  let rows := (batches.map (valuesInsertRows cols)).flatten
  let r := db.insertRows env.valuesFails env.engineIsPostgres t rows
  if r.2 then (r.1, some ((batches.map List.length).sum))
  else fallbackExecutemany env r.1 t cols records

/-- Model of `SyncDataView._postgresql_copy_insert`: build the COPY text and
run `copy_expert`, returning `len(records)`; on any COPY failure (including a
field failing to parse for its column type) it falls back to
`_values_bulk_insert`. -/
def postgresqlCopyInsert (env : Env) (db : Db) (t : String) (cols : List String)
    (records : List Record) : Db × Option Nat :=
  match copyInsertRows t cols records with
  | some rows =>
      let r := db.insertRows env.copyFails env.engineIsPostgres t rows
      if r.2 then (r.1, some records.length)
      else valuesBulkInsert env r.1 t cols records
  | none =>
      let r := db.execMut true env.engineIsPostgres id
      valuesBulkInsert env r.1 t cols records

/-- Model of `SyncDataView._ultra_bulk_insert`: columns come from the first
record's keys; PostgreSQL engines use the COPY strategy, others the VALUES
strategy. -/
def ultraBulkInsert (env : Env) (db : Db) (t : String) (records : List Record) :
    Db × Option Nat :=
  match records with
  | [] => (db, some 0)
  | r0 :: _ =>
      let cols := r0.map Prod.fst
      if env.engineIsPostgres then postgresqlCopyInsert env db t cols records
      else valuesBulkInsert env db t cols records

/-- The tables whose sync is accepted, from `SyncDataView.post`. -/
def validTables : List String := ["rrc_clients", "acc_master", "acc_product"]

/-- A parsed sync request body: the optional `table` key and the `data`
list (`data.get('table', 'rrc_clients')`, `data.get('data', [])`). -/
structure SyncRequest where
  table : Option String
  data : List Record
deriving DecidableEq, Repr

/-- The response of `SyncDataView.post`, as far as the claims observe it. -/
structure SyncResponse where
  success : Bool
  status : Nat
  table : String
  records_processed : Nat
deriving DecidableEq, Repr

/-- Server state observable across requests: committed tables and cache. -/
structure Srv where
  tables : Tables
  cache : CacheStore
deriving DecidableEq, Repr

/-- Model of `SyncDataView.post`: validate the table name and non-emptiness,
then inside `transaction.atomic` truncate, bulk-insert and clear the cache;
an exception anywhere in the block rolls the open transaction back and
returns a 500. The connection starts idle (`Db.fresh`). -/
def syncPost (env : Env) (req : SyncRequest) (st : Srv) : SyncResponse × Srv :=
  let table_name := req.table.getD "rrc_clients"
  if table_name ∈ validTables then
    if req.data.isEmpty then
      ({ success := false, status := 400, table := table_name,
         records_processed := 0 }, st)
    else
      let db0 := (Db.fresh st.tables).beginStmt
      let tr := ultraFastTruncate env db0 table_name
      if tr.2 then
        let ins := ultraBulkInsert env tr.1 table_name req.data
        match ins.2 with
        | some cnt =>
            let cache2 := cacheClear st.cache
            let db3 := ins.1.commitStmt
            ({ success := true, status := 200, table := table_name,
               records_processed := cnt },
             { tables := db3.committed, cache := cache2 })
        | none =>
            ({ success := false, status := 500, table := table_name,
               records_processed := 0 },
             { tables := ins.1.rollback.committed, cache := st.cache })
      else
        ({ success := false, status := 500, table := table_name,
           records_processed := 0 },
         { tables := tr.1.rollback.committed, cache := st.cache })
  else
    ({ success := false, status := 400, table := table_name,
       records_processed := 0 }, st)

/-- The URL table of `api/urls.py`: route path and view name. -/
def urlpatterns : List (String × String) :=
  [("", "home"),
   ("api/sync", "sync_data"),
   ("api/clients", "get_clients"),
   ("api/clients/all", "get_all_clients"),
   ("api/master", "get_master"),
   ("api/master/all", "get_all_master"),
   ("api/products/all", "get_all_products")]

/-- Concrete product records used as witness inputs. -/
def prodRec1 : Record :=
  [("code", Value.vStr "P1"), ("name", Value.vStr "Alpha"),
   ("catagory", Value.vStr "X"), ("unit", Value.vNull),
   ("taxcode", Value.vNull), ("company", Value.vStr "C"),
   ("product", Value.vNull), ("brand", Value.vNull), ("text6", Value.vNull)]

/-- Second concrete product record used as a witness input. -/
def prodRec2 : Record :=
  [("code", Value.vStr "P2"), ("name", Value.vStr "Beta"),
   ("catagory", Value.vStr "Y"), ("unit", Value.vNull),
   ("taxcode", Value.vNull), ("company", Value.vStr "C"),
   ("product", Value.vNull), ("brand", Value.vNull), ("text6", Value.vNull)]

/-- Concrete master record with computed balance −5. -/
def masterRecNeg : Record :=
  [("code", Value.vStr "M1"), ("name", Value.vStr "Acct"),
   ("super_code", Value.vNull), ("opening_balance", Value.vInt 0),
   ("debit", Value.vInt 0), ("credit", Value.vInt 5),
   ("place", Value.vNull), ("phone2", Value.vNull),
   ("openingdepartment", Value.vNull)]

theorem copyEscapeList_append (l₁ l₂ : List Char) :
    copyEscapeList (l₁ ++ l₂) = copyEscapeList l₁ ++ copyEscapeList l₂ := by
  induction l₁ with
  | nil => simp [copyEscapeList]
  | cons c cs ih => simp [copyEscapeList, ih]

theorem copyUnescapeList_cons_ne (c : Char) (h : c ≠ '\\') (l : List Char) :
    copyUnescapeList (c :: l) = c :: copyUnescapeList l := by
  cases l <;> simp [copyUnescapeList, h]

/-- Round trip: the COPY reader undoes the writer's escaping exactly. -/
theorem copyUnescape_copyEscape (l : List Char) :
    copyUnescapeList (copyEscapeList l) = l := by
  induction l with
  | nil => rfl
  | cons c cs ih =>
    show copyUnescapeList (copyEscapeChar c ++ copyEscapeList cs) = c :: cs
    by_cases h1 : c = '\\'
    · subst h1; simp [copyEscapeChar, copyUnescapeList, ih]
    · by_cases h2 : c = '\t'
      · subst h2; simp [copyEscapeChar, copyUnescapeList, ih]
      · by_cases h3 : c = '\n'
        · subst h3; simp [copyEscapeChar, copyUnescapeList, ih]
        · by_cases h4 : c = '\r'
          · subst h4; simp [copyEscapeChar, copyUnescapeList, ih]
          · have hc : copyEscapeChar c = [c] := by
              simp [copyEscapeChar, h1, h2, h3, h4]
            rw [hc, List.singleton_append, copyUnescapeList_cons_ne c h1, ih]

theorem digitCh_spec (d : Nat) (hd : d < 10) :
    isDigitCh (digitCh d) = true ∧ chDigit (digitCh d) = d ∧
    digitCh d ≠ '-' ∧ digitCh d ≠ '\\' := by
  interval_cases d <;> exact ⟨by decide, by decide, by decide, by decide⟩

theorem pyStrNat_all_digits (n : Nat) :
    ∀ c ∈ (pyStrNat n).data, isDigitCh c = true := by
  intro c hc
  by_cases h0 : n = 0
  · subst h0
    have h : (pyStrNat 0).data = ['0'] := rfl
    rw [h, List.mem_singleton] at hc
    subst hc; decide
  · simp only [pyStrNat, if_neg h0] at hc
    have hc' : c ∈ ((Nat.digits 10 n).map digitCh).reverse := hc
    rw [List.mem_reverse, List.mem_map] at hc'
    obtain ⟨d, hd, rfl⟩ := hc'
    exact (digitCh_spec d (Nat.digits_lt_base (by norm_num) hd)).1

theorem parseNatChars_pyStrNat (n : Nat) :
    parseNatChars (pyStrNat n).data = some n := by
  by_cases h0 : n = 0
  · subst h0; decide
  · have hne : (Nat.digits 10 n) ≠ [] := Nat.digits_ne_nil_iff_ne_zero.mpr h0
    have hdata : (pyStrNat n).data = ((Nat.digits 10 n).map digitCh).reverse := by
      simp [pyStrNat, if_neg h0]
    have hlen : (pyStrNat n).data.length = (Nat.digits 10 n).length := by
      rw [hdata, List.length_reverse, List.length_map]
    have hne2 : (pyStrNat n).data ≠ [] := by
      intro h
      apply hne
      rw [h] at hlen
      exact (List.length_eq_zero.mp hlen.symm)
    have hempty : (pyStrNat n).data.isEmpty = false := by
      cases hd : (pyStrNat n).data with
      | nil => exact absurd hd hne2
      | cons a as => rfl
    have halldig : (pyStrNat n).data.all isDigitCh = true := by
      rw [List.all_eq_true]; exact pyStrNat_all_digits n
    have hcond : (!(pyStrNat n).data.isEmpty && (pyStrNat n).data.all isDigitCh) = true := by
      rw [hempty, halldig]; rfl
    unfold parseNatChars
    rw [hcond, if_pos rfl]
    congr 1
    rw [hdata, List.map_reverse, List.reverse_reverse, List.map_map]
    have : (Nat.digits 10 n).map (chDigit ∘ digitCh) = (Nat.digits 10 n).map id := by
      apply List.map_congr_left
      intro d hd
      exact (digitCh_spec d (Nat.digits_lt_base (by norm_num) hd)).2.1
    rw [this, List.map_id, Nat.ofDigits_digits]

theorem pyStrNat_head_not_dash (n : Nat) :
    ∀ c ∈ (pyStrNat n).data, c ≠ '-' ∧ c ≠ '\\' := by
  intro c hc
  have := pyStrNat_all_digits n c hc
  constructor <;> · rintro rfl; simp [isDigitCh] at this

theorem parseIntChars_pyStrInt (n : Int) :
    parseIntChars (pyStrInt n).data = some n := by
  by_cases hneg : n < 0
  · have hdata : (pyStrInt n).data = '-' :: (pyStrNat n.natAbs).data := by
      unfold pyStrInt
      rw [if_pos hneg]
      rfl
    rw [hdata, parseIntChars, parseNatChars_pyStrNat]
    show some (-(n.natAbs : Int)) = some n
    congr 1
    omega
  · have hdata : (pyStrInt n).data = (pyStrNat n.natAbs).data := by
      unfold pyStrInt
      rw [if_neg hneg]
    rw [hdata]
    have hmatch : parseIntChars (pyStrNat n.natAbs).data
        = (parseNatChars (pyStrNat n.natAbs).data).map (fun m => (m : Int)) := by
      rw [parseIntChars.eq_def]
      split
      · rename_i heq
        exfalso
        have : '-' ∈ (pyStrNat n.natAbs).data := by rw [heq]; exact List.mem_cons_self _ _
        exact (pyStrNat_head_not_dash n.natAbs '-' this).1 rfl
      · rfl
    rw [hmatch, parseNatChars_pyStrNat]
    show some ((n.natAbs : Int)) = some n
    congr 1
    omega

theorem copyUnescapeList_no_backslash (l : List Char)
    (h : ∀ c ∈ l, c ≠ '\\') : copyUnescapeList l = l := by
  induction l with
  | nil => rfl
  | cons c cs ih =>
    rw [copyUnescapeList_cons_ne c (h c (List.mem_cons_self _ _))]
    rw [ih (fun d hd => h d (List.mem_cons_of_mem _ hd))]

theorem Record.get_nil (c : String) : Record.get [] c = .vNull := rfl

theorem Record.get_cons_self (c : String) (v : Value) (r : Record) :
    Record.get ((c, v) :: r) c = v := by
  unfold Record.get
  rw [List.find?_cons_of_pos _ (by simp)]

theorem Record.get_cons_ne (k c : String) (hk : k ≠ c) (v : Value) (r : Record) :
    Record.get ((k, v) :: r) c = Record.get r c := by
  unfold Record.get
  rw [List.find?_cons_of_neg _ (by simp [hk])]

/-- Rebuilding a record from its own key list returns the record: the core of
round-tripping `dict(zip(columns, row))` against the original dict. -/
theorem Record.map_get_eq_self (r : Record) (hnd : (r.map Prod.fst).Nodup) :
    (r.map Prod.fst).map (fun c => (c, r.get c)) = r := by
  induction r with
  | nil => rfl
  | cons p rest ih =>
    obtain ⟨k, v⟩ := p
    simp only [List.map_cons, List.nodup_cons] at hnd ⊢
    obtain ⟨hk, hnd'⟩ := hnd
    rw [Record.get_cons_self]
    congr 1
    have : ∀ c ∈ rest.map Prod.fst,
        (c, Record.get ((k, v) :: rest) c) = (c, Record.get rest c) := by
      intro c hc
      have hkc : k ≠ c := fun h => hk (h ▸ hc)
      rw [Record.get_cons_ne k c hkc]
    rw [List.map_congr_left this]
    exact ih hnd'

/-- Looking up a key of a projected record built over a column list. -/
theorem Record.get_map_cols (cols : List String) (f : String → Value)
    (rest : Record) (c : String) (hc : c ∈ cols) :
    Record.get ((cols.map (fun k => (k, f k))) ++ rest) c = f c := by
  induction cols with
  | nil => cases hc
  | cons k ks ih =>
    by_cases hk : k = c
    · subst hk; simpa using Record.get_cons_self k (f k) _
    · have hc' : c ∈ ks := by
        cases hc with
        | head => exact absurd rfl hk
        | tail _ h => exact h
      simpa [Record.get_cons_ne k c hk] using ih hc'

/-- Looking past a projected record when the key is not among its columns. -/
theorem Record.get_map_cols_not_mem (cols : List String) (f : String → Value)
    (rest : Record) (c : String) (hc : c ∉ cols) :
    Record.get ((cols.map (fun k => (k, f k))) ++ rest) c = Record.get rest c := by
  induction cols with
  | nil => rfl
  | cons k ks ih =>
    have hk : k ≠ c := fun h => hc (h ▸ List.mem_cons_self k ks)
    have hc' : c ∉ ks := fun h => hc (List.mem_cons_of_mem _ h)
    simpa [Record.get_cons_ne k c hk] using ih hc'

theorem Tables.getTable_cons_self (n : String) (t : List Record) (rest : Tables) :
    Tables.getTable ((n, t) :: rest) n = t := by
  unfold Tables.getTable
  rw [List.find?_cons_of_pos _ (by simp)]

theorem Tables.getTable_cons_ne (m n : String) (hm : m ≠ n) (u : List Record)
    (rest : Tables) : Tables.getTable ((m, u) :: rest) n = Tables.getTable rest n := by
  unfold Tables.getTable
  rw [List.find?_cons_of_neg _ (by simp [hm])]

theorem Tables.getTable_setTable_self (ts : Tables) (n : String) (t : List Record) :
    (ts.setTable n t).getTable n = t := by
  induction ts with
  | nil => exact Tables.getTable_cons_self n t []
  | cons p rest ih =>
    obtain ⟨m, u⟩ := p
    by_cases hm : m = n
    · subst hm
      simp only [Tables.setTable, beq_self_eq_true, if_true]
      exact Tables.getTable_cons_self m t rest
    · simp only [Tables.setTable, beq_iff_eq, if_neg hm]
      rw [Tables.getTable_cons_ne m n hm]
      exact ih

theorem chunksGo_join (n : Nat) (hn : 0 < n) :
    ∀ (fuel : Nat) (l : List α), l.length ≤ fuel → (chunksGo n fuel l).flatten = l := by
  intro fuel
  induction fuel with
  | zero =>
    intro l hl
    rw [Nat.le_zero] at hl
    rw [List.eq_nil_of_length_eq_zero hl]
    rfl
  | succ f ih =>
    intro l hl
    cases l with
    | nil => rfl
    | cons a as =>
      have hlen : as.length + 1 ≤ f + 1 := by simpa using hl
      show (List.take n (a :: as) :: chunksGo n f (List.drop n (a :: as))).flatten = a :: as
      rw [List.flatten_cons]
      rw [ih (List.drop n (a :: as))
        (by rw [List.length_drop]; simp only [List.length_cons]; omega)]
      exact List.take_append_drop n (a :: as)

/-- Concatenating the batches gives back the input list. -/
theorem chunks_join (n : Nat) (hn : 0 < n) (l : List α) :
    (chunks n l).flatten = l :=
  chunksGo_join n hn l.length l le_rfl

/-- Total rows counted batch by batch equal the input length (this is the
`total_inserted += len(batch)` accumulation of the Python loops). -/
theorem chunks_sum_length (n : Nat) (hn : 0 < n) (l : List α) :
    ((chunks n l).map List.length).sum = l.length := by
  have h := congrArg List.length (chunks_join n hn l)
  rwa [List.length_flatten] at h

theorem optMapList_eq_map (f : α → Option β) (g : α → β) (l : List α)
    (h : ∀ a ∈ l, f a = some (g a)) : optMapList f l = some (l.map g) := by
  induction l with
  | nil => rfl
  | cons a as ih =>
    show (match f a, optMapList f as with
          | some b, some bs => some (b :: bs)
          | _, _ => none) = some (g a :: as.map g)
    rw [h a (List.mem_cons_self a as), ih (fun a ha => h a (List.mem_cons_of_mem _ ha))]

theorem insertByName_perm (r : Record) (l : List Record) :
    (insertByName r l).Perm (r :: l) := by
  induction l with
  | nil => exact List.Perm.refl _
  | cons x xs ih =>
    show (if nameKeyStr x < nameKeyStr r then x :: insertByName r xs
          else r :: x :: xs).Perm (r :: x :: xs)
    by_cases h : nameKeyStr x < nameKeyStr r
    · rw [if_pos h]
      exact ((ih.cons x).trans (List.Perm.swap r x xs))
    · rw [if_neg h]

theorem sortByName_perm (l : List Record) : (sortByName l).Perm l := by
  induction l with
  | nil => exact List.Perm.refl _
  | cons x xs ih =>
    show (insertByName x (sortByName xs)).Perm (x :: xs)
    exact (insertByName_perm x (sortByName xs)).trans (ih.cons x)

theorem Record.get_mem (r : Record) (c : String) (hc : c ∈ r.map Prod.fst) :
    (c, r.get c) ∈ r := by
  induction r with
  | nil => cases hc
  | cons p rest ih =>
    obtain ⟨k, v⟩ := p
    by_cases hk : k = c
    · subst hk
      rw [Record.get_cons_self]
      exact List.mem_cons_self _ _
    · have hc' : c ∈ rest.map Prod.fst := by
        rcases List.mem_cons.mp hc with h | h
        · exact absurd h.symm hk
        · exact h
      rw [Record.get_cons_ne k c hk]
      exact List.mem_cons_of_mem _ (ih hc')

/-- A conforming value passes unchanged through the VALUES and executemany
renderers (only `datetime` values are rewritten, and they conform to no
column type in this schema model). -/
theorem conforms_render_id (ty : ColTy) (v : Value) (hv : valueConforms ty v = true) :
    sqlPieceValue (valuesRender v) = v ∧ executemanyRender v = v := by
  cases v <;> cases ty <;> simp_all [valueConforms, valuesRender, sqlPieceValue,
    executemanyRender]

theorem copyEscapeList_ne_nullmarker (l : List Char) :
    copyEscapeList l ≠ ['\\', 'N'] := by
  cases l with
  | nil => simp [copyEscapeList]
  | cons c cs =>
    show copyEscapeChar c ++ copyEscapeList cs ≠ ['\\', 'N']
    intro h
    by_cases h1 : c = '\\'
    · subst h1; simp [copyEscapeChar] at h
    · by_cases h2 : c = '\t'
      · subst h2; simp [copyEscapeChar] at h
      · by_cases h3 : c = '\n'
        · subst h3; simp [copyEscapeChar] at h
        · by_cases h4 : c = '\r'
          · subst h4; simp [copyEscapeChar] at h
          · rw [show copyEscapeChar c = [c] by simp [copyEscapeChar, h1, h2, h3, h4]] at h
            rw [List.singleton_append] at h
            exact h1 (List.head_eq_of_cons_eq h)

/-- No string escapes to the COPY NULL marker `\N`: nulls and strings can
never be confused in the COPY stream. -/
theorem copyEscape_ne_nullmarker (s : String) : copyEscape s ≠ "\\N" := by
  intro h
  exact copyEscapeList_ne_nullmarker s.data (congrArg String.data h)

theorem pyStrInt_chars (n : Int) :
    ∀ c ∈ (pyStrInt n).data, c = '-' ∨ isDigitCh c = true := by
  intro c hc
  by_cases hneg : n < 0
  · have hdata : (pyStrInt n).data = '-' :: (pyStrNat n.natAbs).data := by
      unfold pyStrInt
      rw [if_pos hneg]
      rfl
    rw [hdata] at hc
    rcases List.mem_cons.mp hc with h | h
    · exact Or.inl h
    · exact Or.inr (pyStrNat_all_digits n.natAbs c h)
  · have hdata : (pyStrInt n).data = (pyStrNat n.natAbs).data := by
      unfold pyStrInt
      rw [if_neg hneg]
    rw [hdata] at hc
    exact Or.inr (pyStrNat_all_digits n.natAbs c hc)

theorem pyStrInt_ne_nullmarker (n : Int) : pyStrInt n ≠ "\\N" := by
  intro h
  have hmem : '\\' ∈ (pyStrInt n).data := by
    rw [h]
    exact List.mem_cons_self _ _
  rcases pyStrInt_chars n '\\' hmem with hc | hc
  · exact absurd hc (by decide)
  · exact absurd hc (by decide)

theorem copyUnescapeList_pyStrInt (n : Int) :
    copyUnescapeList (pyStrInt n).data = (pyStrInt n).data := by
  apply copyUnescapeList_no_backslash
  intro c hc
  rcases pyStrInt_chars n c hc with hc | hc
  · subst hc; decide
  · intro hb
    subst hb
    exact absurd hc (by decide)

/-- COPY round trip for one conforming value: rendering a field and reading
it back through the COPY text reader restores the value. -/
theorem copyParseField_render (ty : ColTy) (v : Value)
    (hv : valueConforms ty v = true) :
    copyParseField ty (copyRenderField v) = some v := by
  cases v with
  | vNull => cases ty <;> simp [copyRenderField, copyParseField]
  | vStr s =>
    cases ty with
    | tText =>
      have hne : copyEscape s ≠ "\\N" := copyEscape_ne_nullmarker s
      simp only [copyRenderField, copyParseField, if_neg hne]
      rw [show (copyEscape s).data = copyEscapeList s.data from rfl]
      rw [copyUnescape_copyEscape]
    | tInt => simp [valueConforms] at hv
  | vInt n =>
    cases ty with
    | tText => simp [valueConforms] at hv
    | tInt =>
      have hren : copyRenderField (.vInt n) = pyStrInt n := rfl
      have hne : pyStrInt n ≠ "\\N" := pyStrInt_ne_nullmarker n
      rw [hren]
      simp only [copyParseField, if_neg hne]
      rw [copyUnescapeList_pyStrInt, parseIntChars_pyStrInt]
      rfl
  | vBool b => cases ty <;> simp [valueConforms] at hv
  | vDatetime dt => cases ty <;> simp [valueConforms] at hv

/-- Rebuild a record through a per-value transform that fixes its values. -/
theorem row_map_get_eq (r : Record) (hnd : (r.map Prod.fst).Nodup)
    (g : Value → Value) (hg : ∀ p ∈ r, g p.2 = p.2) :
    (r.map Prod.fst).map (fun c => (c, g (r.get c))) = r := by
  have h1 : ∀ c ∈ r.map Prod.fst, (c, g (r.get c)) = (c, r.get c) := by
    intro c hc
    have := hg (c, r.get c) (Record.get_mem r c hc)
    simp only at this
    rw [this]
  rw [List.map_congr_left h1]
  exact Record.map_get_eq_self r hnd

/-- The VALUES strategy stores exactly the conforming input records. -/
theorem valuesInsertRows_eq (tn : String) (records : List Record)
    (cols : List String)
    (hcols : ∀ r ∈ records, r.map Prod.fst = cols) (hnd : cols.Nodup)
    (hconf : ∀ r ∈ records, recordConforms tn r = true) :
    valuesInsertRows cols records = records := by
  unfold valuesInsertRows
  rw [show records.map (fun r => cols.map fun c =>
        (c, sqlPieceValue (valuesRender (r.get c)))) = records.map id by
    apply List.map_congr_left
    intro r hr
    rw [← hcols r hr]
    exact row_map_get_eq r (by rw [hcols r hr]; exact hnd)
      (fun v => sqlPieceValue (valuesRender v))
      (fun p hp =>
        (conforms_render_id (colTy tn p.1) p.2
          (List.all_eq_true.mp (hconf r hr) p hp)).1)]
  exact List.map_id records

/-- The executemany strategy stores exactly the conforming input records. -/
theorem executemanyInsertRows_eq (tn : String) (records : List Record)
    (cols : List String)
    (hcols : ∀ r ∈ records, r.map Prod.fst = cols) (hnd : cols.Nodup)
    (hconf : ∀ r ∈ records, recordConforms tn r = true) :
    executemanyInsertRows cols records = records := by
  unfold executemanyInsertRows
  rw [show records.map (fun r => cols.map fun c =>
        (c, executemanyRender (r.get c))) = records.map id by
    apply List.map_congr_left
    intro r hr
    rw [← hcols r hr]
    exact row_map_get_eq r (by rw [hcols r hr]; exact hnd) executemanyRender
      (fun p hp =>
        (conforms_render_id (colTy tn p.1) p.2
          (List.all_eq_true.mp (hconf r hr) p hp)).2)]
  exact List.map_id records

theorem zip_self_map (l : List α) (f : α → β) :
    l.zip (l.map f) = l.map (fun a => (a, f a)) := by
  induction l with
  | nil => rfl
  | cons a as ih => simp [ih]

/-- The COPY strategy ingests one conforming record back exactly. -/
theorem copyIngestRow_render (tn : String) (r : Record) (cols : List String)
    (hcols : r.map Prod.fst = cols) (hnd : cols.Nodup)
    (hconf : recordConforms tn r = true) :
    copyIngestRow tn cols (copyRenderRow cols r) = some r := by
  unfold copyIngestRow copyRenderRow
  rw [zip_self_map]
  have hstep : ∀ c ∈ cols,
      (fun p => (copyParseField (colTy tn p.1) p.2).map (fun v => (p.1, v)))
          ((fun c => (c, copyRenderField (r.get c))) c)
        = some ((fun c => (c, r.get c)) c) := by
    intro c hc
    have hcmem : c ∈ r.map Prod.fst := by rw [hcols]; exact hc
    have hcp := List.all_eq_true.mp hconf (c, r.get c) (Record.get_mem r c hcmem)
    simp only at hcp
    show (copyParseField (colTy tn c) (copyRenderField (r.get c))).map
        (fun v => (c, v)) = some (c, r.get c)
    rw [copyParseField_render (colTy tn c) (r.get c) hcp]
    rfl
  have := optMapList_eq_map
    (fun p => (copyParseField (colTy tn p.1) p.2).map (fun v => (p.1, v)))
    (fun p => (p.1, r.get p.1))
    (cols.map (fun c => (c, copyRenderField (r.get c))))
    (by
      intro a ha
      rw [List.mem_map] at ha
      obtain ⟨c, hc, rfl⟩ := ha
      exact hstep c hc)
  rw [this]
  rw [List.map_map]
  have : cols.map ((fun p => (p.1, r.get p.1)) ∘ (fun c => (c, copyRenderField (r.get c))))
      = cols.map (fun c => (c, r.get c)) := by
    apply List.map_congr_left
    intro c _
    rfl
  rw [this, ← hcols, Record.map_get_eq_self r (by rw [hcols]; exact hnd)]

/-- The COPY strategy stores exactly the conforming input records. -/
theorem copyInsertRows_eq (tn : String) (records : List Record)
    (cols : List String)
    (hcols : ∀ r ∈ records, r.map Prod.fst = cols) (hnd : cols.Nodup)
    (hconf : ∀ r ∈ records, recordConforms tn r = true) :
    copyInsertRows tn cols records = some records := by
  unfold copyInsertRows
  have := optMapList_eq_map
    (fun r => copyIngestRow tn cols (copyRenderRow cols r)) id records
    (fun r hr => copyIngestRow_render tn r cols (hcols r hr) hnd (hconf r hr))
  rw [this, List.map_id]

theorem flatten_map_map (L : List (List α)) (f : α → β) :
    (L.map (List.map f)).flatten = L.flatten.map f := by
  induction L with
  | nil => rfl
  | cons a as ih =>
    show (a.map f :: as.map (List.map f)).flatten = (a ++ as.flatten).map f
    rw [List.flatten_cons, ih, List.map_append]

/-- Batch-wise VALUES insertion produces the same rows as one pass. -/
theorem batched_valuesRows (cols : List String) (records : List Record) :
    ((chunks 2000 records).map (valuesInsertRows cols)).flatten
      = valuesInsertRows cols records := by
  unfold valuesInsertRows
  rw [flatten_map_map, chunks_join 2000 (by norm_num)]

/-- Batch-wise executemany insertion produces the same rows as one pass. -/
theorem batched_execRows (cols : List String) (records : List Record) :
    ((chunks 1000 records).map (executemanyInsertRows cols)).flatten
      = executemanyInsertRows cols records := by
  unfold executemanyInsertRows
  rw [flatten_map_map, chunks_join 1000 (by norm_num)]

set_option maxRecDepth 8000 in
theorem tableColumns_nodup (tn : String) (h : tn ∈ validTables) :
    (tableColumns tn).Nodup := by
  cases h with
  | head => decide
  | tail _ h =>
    cases h with
    | head => decide
    | tail _ h =>
      cases h with
      | head => decide
      | tail _ h => cases h

theorem truncate_ok (pg cf vf ef : Bool) (ts : Tables) (tn : String) :
    ultraFastTruncate ⟨pg, false, cf, vf, ef⟩ ((Db.fresh ts).beginStmt) tn =
      ({ committed := ts.setTable tn [], txnOpen := false,
         working := ts.setTable tn [], aborted := false }, true) := rfl

theorem truncate_fail (pg cf vf ef : Bool) (ts : Tables) (tn : String) :
    (ultraFastTruncate ⟨pg, true, cf, vf, ef⟩ ((Db.fresh ts).beginStmt) tn).2
      = false := by
  cases pg <;> rfl

theorem ub_copy_ok (tf vf ef : Bool) (C : Tables) (tn : String) (r0 : Record)
    (rest : List Record)
    (hcopy : copyInsertRows tn (r0.map Prod.fst) (r0 :: rest) = some (r0 :: rest)) :
    ultraBulkInsert ⟨true, tf, false, vf, ef⟩
        ⟨C, false, C, false⟩ tn (r0 :: rest)
      = (⟨C, true, C.setTable tn (C.getTable tn ++ (r0 :: rest)), false⟩,
         some (r0 :: rest).length) := by
  simp only [ultraBulkInsert, postgresqlCopyInsert]
  rw [hcopy]
  rfl

theorem ub_copy_fail (tf vf ef : Bool) (C : Tables) (tn : String) (r0 : Record)
    (rest : List Record)
    (hcopy : copyInsertRows tn (r0.map Prod.fst) (r0 :: rest) = some (r0 :: rest)) :
    (ultraBulkInsert ⟨true, tf, true, vf, ef⟩
        ⟨C, false, C, false⟩ tn (r0 :: rest)).2 = none := by
  simp only [ultraBulkInsert, postgresqlCopyInsert]
  rw [hcopy]
  rfl

theorem ub_values_ok (tf cf ef : Bool) (C : Tables) (tn : String) (r0 : Record)
    (rest : List Record) :
    ultraBulkInsert ⟨false, tf, cf, false, ef⟩
        ⟨C, false, C, false⟩ tn (r0 :: rest)
      = (⟨C, true,
          C.setTable tn (C.getTable tn ++
            ((chunks 2000 (r0 :: rest)).map
              (valuesInsertRows (r0.map Prod.fst))).flatten), false⟩,
         some (((chunks 2000 (r0 :: rest)).map List.length).sum)) := rfl

theorem ub_values_fail_exec_ok (tf cf : Bool) (C : Tables) (tn : String)
    (r0 : Record) (rest : List Record) :
    ultraBulkInsert ⟨false, tf, cf, true, false⟩
        ⟨C, false, C, false⟩ tn (r0 :: rest)
      = (⟨C, true,
          C.setTable tn (C.getTable tn ++
            ((chunks 1000 (r0 :: rest)).map
              (executemanyInsertRows (r0.map Prod.fst))).flatten), false⟩,
         some (((chunks 1000 (r0 :: rest)).map List.length).sum)) := rfl

theorem ub_values_fail_exec_fail (tf cf : Bool) (C : Tables) (tn : String)
    (r0 : Record) (rest : List Record) :
    (ultraBulkInsert ⟨false, tf, cf, true, true⟩
        ⟨C, false, C, false⟩ tn (r0 :: rest)).2 = none := rfl

/-- Characterization of a successful sync of conforming full-column records:
whatever insertion strategy the environment makes succeed (COPY, VALUES or
executemany), the committed table afterwards holds exactly the input
records, the reported count is their number, and the cache is cleared. -/
theorem syncPost_success_eq (env : Env) (st : Srv) (tn : String)
    (records : List Record)
    (hcols : ∀ r ∈ records, r.map Prod.fst = tableColumns tn)
    (hconf : ∀ r ∈ records, recordConforms tn r = true)
    (hsucc : (syncPost env ⟨some tn, records⟩ st).1.success = true) :
    (syncPost env ⟨some tn, records⟩ st).2.tables.getTable tn = records ∧
    (syncPost env ⟨some tn, records⟩ st).1.records_processed = records.length ∧
    (syncPost env ⟨some tn, records⟩ st).2.cache = [] := by
  by_cases hmem : tn ∈ validTables
  · cases records with
    | nil =>
      exfalso
      unfold syncPost at hsucc
      simp only [Option.getD_some] at hsucc
      rw [if_pos hmem] at hsucc
      simp at hsucc
    | cons r0 rest =>
      have hnd' : (r0.map Prod.fst).Nodup := by
        rw [hcols r0 (List.mem_cons_self r0 rest)]
        exact tableColumns_nodup tn hmem
      have hcols' : ∀ r ∈ r0 :: rest, r.map Prod.fst = r0.map Prod.fst := by
        intro r hr
        rw [hcols r hr, hcols r0 (List.mem_cons_self r0 rest)]
      have hcopy := copyInsertRows_eq tn (r0 :: rest) (r0.map Prod.fst) hcols' hnd' hconf
      have hvals := valuesInsertRows_eq tn (r0 :: rest) (r0.map Prod.fst) hcols' hnd' hconf
      have hexec := executemanyInsertRows_eq tn (r0 :: rest) (r0.map Prod.fst) hcols' hnd' hconf
      rcases env with ⟨pg, tf, cf, vf, ef⟩
      cases tf with
      | true =>
        exfalso
        unfold syncPost at hsucc
        simp only [Option.getD_some] at hsucc
        rw [if_pos hmem] at hsucc
        simp only [List.isEmpty_cons, Bool.false_eq_true, if_false] at hsucc
        rw [truncate_fail pg cf vf ef st.tables tn] at hsucc
        simp at hsucc
      | false =>
        have heqT := truncate_ok pg cf vf ef st.tables tn
        cases pg with
        | true =>
          cases cf with
          | false =>
            have heq :
                syncPost ⟨true, false, false, vf, ef⟩ ⟨some tn, r0 :: rest⟩ st
                  = ({ success := true, status := 200, table := tn,
                       records_processed := (r0 :: rest).length },
                     { tables :=
                        (st.tables.setTable tn []).setTable tn
                          ((st.tables.setTable tn []).getTable tn ++ (r0 :: rest)),
                       cache := [] }) := by
              unfold syncPost
              simp only [Option.getD_some]
              rw [if_pos hmem]
              simp only [List.isEmpty_cons, Bool.false_eq_true, if_false]
              rw [heqT]
              simp only []
              rw [ub_copy_ok false vf ef (st.tables.setTable tn []) tn r0 rest hcopy]
              rfl
            rw [heq]
            refine ⟨?_, rfl, rfl⟩
            simp only [Tables.getTable_setTable_self, List.nil_append]
          | true =>
            exfalso
            unfold syncPost at hsucc
            simp only [Option.getD_some] at hsucc
            rw [if_pos hmem] at hsucc
            simp only [List.isEmpty_cons, Bool.false_eq_true, if_false] at hsucc
            rw [heqT] at hsucc
            simp only [] at hsucc
            rw [ub_copy_fail false vf ef (st.tables.setTable tn []) tn r0 rest hcopy]
              at hsucc
            simp at hsucc
        | false =>
          cases vf with
          | false =>
            have heq :
                syncPost ⟨false, false, cf, false, ef⟩ ⟨some tn, r0 :: rest⟩ st
                  = ({ success := true, status := 200, table := tn,
                       records_processed :=
                         ((chunks 2000 (r0 :: rest)).map List.length).sum },
                     { tables :=
                        (st.tables.setTable tn []).setTable tn
                          ((st.tables.setTable tn []).getTable tn ++
                            ((chunks 2000 (r0 :: rest)).map
                              (valuesInsertRows (r0.map Prod.fst))).flatten),
                       cache := [] }) := by
              unfold syncPost
              simp only [Option.getD_some]
              rw [if_pos hmem]
              simp only [List.isEmpty_cons, Bool.false_eq_true, if_false]
              rw [heqT]
              simp only []
              rw [ub_values_ok false cf ef (st.tables.setTable tn []) tn r0 rest]
              rfl
            rw [heq]
            refine ⟨?_, ?_, rfl⟩
            · simp only [Tables.getTable_setTable_self, List.nil_append]
              rw [batched_valuesRows, hvals]
            · exact chunks_sum_length 2000 (by norm_num) (r0 :: rest)
          | true =>
            cases ef with
            | false =>
              have heq :
                  syncPost ⟨false, false, cf, true, false⟩ ⟨some tn, r0 :: rest⟩ st
                    = ({ success := true, status := 200, table := tn,
                         records_processed :=
                           ((chunks 1000 (r0 :: rest)).map List.length).sum },
                       { tables :=
                          (st.tables.setTable tn []).setTable tn
                            ((st.tables.setTable tn []).getTable tn ++
                              ((chunks 1000 (r0 :: rest)).map
                                (executemanyInsertRows (r0.map Prod.fst))).flatten),
                         cache := [] }) := by
                unfold syncPost
                simp only [Option.getD_some]
                rw [if_pos hmem]
                simp only [List.isEmpty_cons, Bool.false_eq_true, if_false]
                rw [heqT]
                simp only []
                rw [ub_values_fail_exec_ok false cf (st.tables.setTable tn []) tn r0 rest]
                rfl
              rw [heq]
              refine ⟨?_, ?_, rfl⟩
              · simp only [Tables.getTable_setTable_self, List.nil_append]
                rw [batched_execRows, hexec]
              · exact chunks_sum_length 1000 (by norm_num) (r0 :: rest)
            | true =>
              exfalso
              unfold syncPost at hsucc
              simp only [Option.getD_some] at hsucc
              rw [if_pos hmem] at hsucc
              simp only [List.isEmpty_cons, Bool.false_eq_true, if_false] at hsucc
              rw [heqT] at hsucc
              simp only [] at hsucc
              rw [ub_values_fail_exec_fail false cf (st.tables.setTable tn []) tn r0 rest]
                at hsucc
              simp at hsucc
  · exfalso
    unfold syncPost at hsucc
    simp only [Option.getD_some] at hsucc
    rw [if_neg hmem] at hsucc
    simp at hsucc

/-- A conforming value is untouched by the isoformat conversion (only
`datetime`/date objects are converted, and they conform to no column type in
this schema model). -/
theorem conforms_isoDate_id (ty : ColTy) (v : Value)
    (hv : valueConforms ty v = true) : isoDate v = v := by
  cases v <;> cases ty <;> simp_all [valueConforms, isoDate]

set_option maxRecDepth 8000 in
theorem clientColumns_nodup : clientColumns.Nodup := by decide

/-- For a full-column conforming client record the emitted read row is the
record itself. -/
theorem clientEmit_id (r : Record) (hk : r.map Prod.fst = clientColumns)
    (hc : recordConforms "rrc_clients" r = true) : clientEmit r = r := by
  unfold clientEmit
  rw [← hk, Record.map_get_eq_self r (by rw [hk]; exact clientColumns_nodup)]
  rw [show r.map (fun p => if p.1 = "installationdate" then (p.1, isoDate p.2) else p)
      = r.map id by
    apply List.map_congr_left
    intro p hp
    have hcp := List.all_eq_true.mp hc p hp
    by_cases hkey : p.1 = "installationdate"
    · simp only [if_pos hkey]
      rw [conforms_isoDate_id _ _ hcp]
      rfl
    · simp only [if_neg hkey]
      rfl]
  exact List.map_id r

set_option maxRecDepth 4000 in
theorem productColumns_nodup : productColumns.Nodup := by decide

/-- For a full-column product record the emitted read row is the record. -/
theorem productEmit_id (r : Record) (hk : r.map Prod.fst = productColumns) :
    productEmit r = r := by
  unfold productEmit
  rw [← hk]
  exact Record.map_get_eq_self r (by rw [hk]; exact productColumns_nodup)

set_option maxRecDepth 4000 in
theorem masterColumns_nodup : masterColumns.Nodup := by decide

/-- For a full-column master record the emitted read row is the record plus
the computed balance column. -/
theorem masterEmit_eq (r : Record) (hk : r.map Prod.fst = masterColumns) :
    masterEmit r = r ++ [("balance", Value.vInt (balanceOf r))] := by
  unfold masterEmit
  rw [← hk, Record.map_get_eq_self r (by rw [hk]; exact masterColumns_nodup)]

theorem clientsWhere_empty (r : Record) : clientsWhere "" r = true := rfl

theorem productsWhere_empty (r : Record) : productsWhere "" "" "" "" r = true := rfl

theorem masterWhere_empty (r : Record) :
    masterWhere "" r = decide (0 < balanceOf r) := by
  unfold masterWhere
  rw [if_pos rfl, Bool.and_true]

/-- An empty cache always misses: the paginated clients view fetches fresh. -/
theorem getClientsView_empty_cache (now : Nat) (tbl : List Record)
    (page psReq : Nat) (search : String) (ttl : Nat) :
    (getClientsView now [] tbl page psReq search ttl).1
      = { body := fetchClientsOptimized tbl page (min psReq 5000) search,
          from_cache := false } := rfl

/-- An empty cache always misses: the paginated master view fetches fresh. -/
theorem getMasterView_empty_cache (now : Nat) (tbl : List Record)
    (page psReq : Nat) (search : String) (ttl : Nat) :
    (getMasterView now [] tbl page psReq search ttl).1
      = { body := fetchMasterOptimized tbl page (min psReq 5000) search,
          from_cache := false } := rfl

/-- An empty cache always misses: the products view fetches fresh. -/
theorem getAllProductsView_empty_cache (now : Nat) (tbl : List Record)
    (search category company brand : String) (ttl : Nat) :
    (getAllProductsView now [] tbl search category company brand ttl).1
      = { body := fetchProducts tbl search category company brand,
          from_cache := false } := rfl

theorem le_totalPages_mul (total ps : Nat) (hs : 0 < ps) :
    total ≤ totalPagesOf total ps * ps := by
  unfold totalPagesOf
  by_contra hcon
  push_neg at hcon
  have h2 : ((total + ps - 1) / ps + 1) * ps ≤ total + ps - 1 := by
    have h1 : (total + ps - 1) / ps * ps + 1 ≤ total := hcon
    have : ((total + ps - 1) / ps + 1) * ps = (total + ps - 1) / ps * ps + ps := by ring
    omega
  have h3 : (total + ps - 1) / ps + 1 ≤ (total + ps - 1) / ps :=
    (Nat.le_div_iff_mul_le hs).mpr h2
  omega

/-- Claim C10: a sync request whose body omits the `table` key does not fail: the
table name defaults to `'rrc_clients'` and the request behaves exactly as if
that table had been named explicitly. -/
theorem C10_table_defaults_to_clients (env : Env) (st : Srv)
    (records : List Record) :
    syncPost env { table := none, data := records } st
      = syncPost env { table := some "rrc_clients", data := records } st := rfl

/-- Claim C4: a sync request naming an unknown table, or carrying an empty record
list, fails with status 400 and `success := false` before any mutation: the
server state (tables and cache) is returned exactly unchanged, and an empty
payload is an error rather than a no-op success. -/
theorem C4_validation_rejects_before_mutation (env : Env) (st : Srv)
    (req : SyncRequest)
    (h : req.table.getD "rrc_clients" ∉ validTables ∨ req.data = []) :
    (syncPost env req st).1.status = 400 ∧
    (syncPost env req st).1.success = false ∧
    (syncPost env req st).2 = st := by
  rcases h with h | h
  · unfold syncPost
    rw [if_neg h]
    exact ⟨rfl, rfl, rfl⟩
  · by_cases hmem : req.table.getD "rrc_clients" ∈ validTables
    · unfold syncPost
      rw [if_pos hmem, h]
      exact ⟨rfl, rfl, rfl⟩
    · unfold syncPost
      rw [if_neg hmem]
      exact ⟨rfl, rfl, rfl⟩

/-- Witness for C4 at a concrete unknown table name. -/
theorem C4_witness :
    (syncPost ⟨true, false, false, false, false⟩
        { table := some "bogus_table", data := [[("code", Value.vStr "X")]] }
        { tables := [], cache := [] }).1.status = 400 ∧
    (syncPost ⟨true, false, false, false, false⟩
        { table := some "bogus_table", data := [[("code", Value.vStr "X")]] }
        { tables := [], cache := [] }).1.success = false ∧
    (syncPost ⟨true, false, false, false, false⟩
        { table := some "bogus_table", data := [[("code", Value.vStr "X")]] }
        { tables := [], cache := [] }).2 = { tables := [], cache := [] } :=
  C4_validation_rejects_before_mutation _ _ _ (Or.inl (by decide))

/-- Claim C5 counterexample: under the COPY strategy (`_postgresql_copy_insert`)
a datetime value renders with `strftime('%Y-%m-%d %H:%M:%S')`, carrying a
time-of-day component, not the canonical `YYYY-MM-DD` the claim requires of
every strategy. -/
theorem C5_counterexample :
    copyRenderField (.vDatetime ⟨2024, 1, 2, 3, 4, 5⟩) = "2024-01-02 03:04:05" ∧
    ("2024-01-02 03:04:05" : String) ≠ "2024-01-02" ∧
    ("2024-01-02 03:04:05" : String) ≠ fmtYMD ⟨2024, 1, 2, 3, 4, 5⟩ := by
  refine ⟨by decide, by decide, by decide⟩

/-- Claim C5 (amended): null is inserted as null under every strategy (SQL `NULL`
literal, `None` parameter, COPY `\N` marker); datetime values render as
`YYYY-MM-DD` under the VALUES and executemany strategies but as
`YYYY-MM-DD HH:MM:SS` under COPY; all other scalars pass through unchanged
as parameters under VALUES and executemany, while COPY renders strings with
its escaping (and other scalars through `str`). -/
theorem C5_amended_value_normalization :
    (∀ dt, sqlPieceValue (valuesRender (.vDatetime dt)) = .vStr (fmtYMD dt)) ∧
    (∀ dt, executemanyRender (.vDatetime dt) = .vStr (fmtYMD dt)) ∧
    (∀ dt, copyRenderField (.vDatetime dt) = fmtYMDHMS dt) ∧
    valuesRender .vNull = .nullLit ∧
    executemanyRender .vNull = .vNull ∧
    copyRenderField .vNull = "\\N" ∧
    (∀ s, valuesRender (.vStr s) = .param (.vStr s)) ∧
    (∀ n, valuesRender (.vInt n) = .param (.vInt n)) ∧
    (∀ b, valuesRender (.vBool b) = .param (.vBool b)) ∧
    (∀ s, executemanyRender (.vStr s) = .vStr s) ∧
    (∀ n, executemanyRender (.vInt n) = .vInt n) ∧
    (∀ b, executemanyRender (.vBool b) = .vBool b) ∧
    (∀ s, copyRenderField (.vStr s) = copyEscape s) :=
  ⟨fun _ => rfl, fun _ => rfl, fun _ => rfl, rfl, rfl, rfl, fun _ => rfl,
   fun _ => rfl, fun _ => rfl, fun _ => rfl, fun _ => rfl, fun _ => rfl,
   fun _ => rfl⟩

/-- Claim C9 counterexample: the URL table exposes no refresh-cache route at all —
no pattern path equals or even contains `refresh-cache`. -/
theorem C9_counterexample :
    "api/refresh-cache" ∉ urlpatterns.map Prod.fst ∧
    "refresh-cache" ∉ urlpatterns.map Prod.fst ∧
    urlpatterns.all (fun e => !hasSub "refresh-cache".data e.1.data) = true := by
  refine ⟨by decide, by decide, by decide⟩

/-- Claim C9 (amended): the HTTP surface consists exactly of the home route, the
sync route and the five read routes — there is no refresh-cache endpoint;
the only cache-invalidating operation is `POST api/sync`, which either
clears the entire cache (on success) or leaves it untouched (on failure). -/
theorem C9_amended_routes :
    urlpatterns.map Prod.fst =
      ["", "api/sync", "api/clients", "api/clients/all",
       "api/master", "api/master/all", "api/products/all"] ∧
    ∀ (env : Env) (req : SyncRequest) (st : Srv),
      (syncPost env req st).2.cache = [] ∨ (syncPost env req st).2.cache = st.cache := by
  refine ⟨rfl, ?_⟩
  intro env req st
  unfold syncPost
  simp only []
  by_cases hmem : req.table.getD "rrc_clients" ∈ validTables
  · rw [if_pos hmem]
    by_cases he : req.data.isEmpty = true
    · rw [if_pos he]
      exact Or.inr rfl
    · rw [if_neg he]
      by_cases htr : (ultraFastTruncate env ((Db.fresh st.tables).beginStmt)
          (req.table.getD "rrc_clients")).2 = true
      · rw [if_pos htr]
        cases hins : (ultraBulkInsert env
            (ultraFastTruncate env ((Db.fresh st.tables).beginStmt)
              (req.table.getD "rrc_clients")).1
            (req.table.getD "rrc_clients") req.data).2 with
        | none => exact Or.inr rfl
        | some cnt => exact Or.inl rfl
      · rw [if_neg htr]
        exact Or.inr rfl
  · rw [if_neg hmem]
    exact Or.inr rfl

/-- Claim C7: a cached clients page written with `last_updated = t0` and TTL
`ttlMin` minutes is treated as a miss by any read at `now ≥ t0 + ttlMin·60`
seconds: the expired entry is never served (`from_cache = false`) and the
response is freshly fetched from the database. -/
theorem C7_ttl_expiry (now t0 ttlMin : Nat) (st : CacheStore) (tbl : List Record)
    (page psReq : Nat) (search : String) (d : ClientsFetch)
    (hck : cacheGet st (clientsCacheKey page (min psReq 5000) search)
            = some (.clientsPage d))
    (hlu : cacheGet st clientsLastUpdatedKey = some (.time t0))
    (hexp : t0 + ttlMin * 60 ≤ now) :
    (getClientsView now st tbl page psReq search ttlMin).1.from_cache = false ∧
    (getClientsView now st tbl page psReq search ttlMin).1.body
      = fetchClientsOptimized tbl page (min psReq 5000) search := by
  unfold getClientsView
  simp only []
  rw [hck, hlu]
  simp only []
  rw [if_neg (show ¬ (now - t0 < ttlMin * 60) by omega)]
  exact ⟨rfl, rfl⟩

/-- Witness for C7: a concrete cache entry written at `t0 = 100` with a
15-minute TTL, read at `now = 1000 ≥ 100 + 900`. -/
theorem C7_witness :
    (getClientsView 1000
        [(clientsCacheKey 1 50 "",
          CacheVal.clientsPage (fetchClientsOptimized [] 1 50 "")),
         (clientsLastUpdatedKey, CacheVal.time 100)]
        [] 1 50 "" 15).1.from_cache = false ∧
    (getClientsView 1000
        [(clientsCacheKey 1 50 "",
          CacheVal.clientsPage (fetchClientsOptimized [] 1 50 "")),
         (clientsLastUpdatedKey, CacheVal.time 100)]
        [] 1 50 "" 15).1.body
      = fetchClientsOptimized [] 1 (min 50 5000) "" :=
  C7_ttl_expiry 1000 100 15
    [(clientsCacheKey 1 50 "",
      CacheVal.clientsPage (fetchClientsOptimized [] 1 50 "")),
     (clientsLastUpdatedKey, CacheVal.time 100)]
    [] 1 50 "" (fetchClientsOptimized [] 1 50 "")
    (by decide) (by decide) (by omega)

/-- Claim C8 counterexample: for page 2 with requested page size 6000 the code
computes its query offset over the clamped size, `(2−1)·5000 = 5000`, not
`(2−1)·6000 = 6000` as the claim states, and for 6000 total records it
reports `total_pages = 2`, not `ceil(6000/6000) = 1`. -/
theorem C8_counterexample :
    queryOffset 2 (min 6000 5000) = 5000 ∧ (2 - 1) * 6000 = 6000 ∧
    totalPagesOf 6000 (min 6000 5000) = 2 ∧ (6000 + 6000 - 1) / 6000 = 1 ∧
    (5000 : Nat) ≠ 6000 ∧ (2 : Nat) ≠ 1 := by
  refine ⟨by decide, by decide, by decide, by decide, by decide, by decide⟩

/-- Claim C8 (amended): for a paginated clients read with 1-indexed page `p ≥ 1`
and requested size `s ≥ 1`, the effective page size is `s' = min s 5000`,
the query offset is `(p−1)·s'` (over the clamped size, not the requested
one), `total_pages = ⌈total_records / s'⌉` (as `(total+s'−1)/s'`),
`has_next ↔ p < total_pages`, `has_previous ↔ p > 1`, and a page beyond
range yields an empty row set with the same (accurate) metadata rather than
an error. -/
theorem C8_amended_pagination (tbl : List Record) (page psReq : Nat)
    (search : String) (hp : 1 ≤ page) (hs : 1 ≤ psReq) :
    (fetchClientsOptimized tbl page (min psReq 5000) search).pagination.page_size
        = min psReq 5000 ∧
    min psReq 5000 ≤ 5000 ∧
    (fetchClientsOptimized tbl page (min psReq 5000) search).data
      = (((sortByName (tbl.filter (clientsWhere search))).drop
            (queryOffset page (min psReq 5000))).take (min psReq 5000)).map clientEmit ∧
    queryOffset page (min psReq 5000) = (page - 1) * min psReq 5000 ∧
    (fetchClientsOptimized tbl page (min psReq 5000) search).pagination.total_pages
      = totalPagesOf
          (fetchClientsOptimized tbl page (min psReq 5000) search).pagination.total_records
          (min psReq 5000) ∧
    (fetchClientsOptimized tbl page (min psReq 5000) search).pagination.has_next
      = decide (page <
          (fetchClientsOptimized tbl page (min psReq 5000) search).pagination.total_pages) ∧
    (fetchClientsOptimized tbl page (min psReq 5000) search).pagination.has_previous
      = decide (1 < page) ∧
    ((fetchClientsOptimized tbl page (min psReq 5000) search).pagination.total_pages < page →
      (fetchClientsOptimized tbl page (min psReq 5000) search).data = [] ∧
      (fetchClientsOptimized tbl page (min psReq 5000) search).records_on_page = 0) := by
  have hps : 0 < min psReq 5000 := by
    rw [Nat.min_def]
    split <;> omega
  refine ⟨rfl, Nat.min_le_right psReq 5000, rfl, rfl, rfl, rfl, rfl, ?_⟩
  intro hlt
  have hlen : (sortByName (tbl.filter (clientsWhere search))).length
      = (tbl.filter (clientsWhere search)).length :=
    (sortByName_perm (tbl.filter (clientsWhere search))).length_eq
  have hbound : (sortByName (tbl.filter (clientsWhere search))).length
      ≤ queryOffset page (min psReq 5000) := by
    rw [hlen]
    have h1 : (tbl.filter (clientsWhere search)).length
        ≤ totalPagesOf (tbl.filter (clientsWhere search)).length (min psReq 5000)
            * min psReq 5000 :=
      le_totalPages_mul _ _ hps
    have h2 : totalPagesOf (tbl.filter (clientsWhere search)).length (min psReq 5000)
        ≤ page - 1 := by
      have : totalPagesOf (tbl.filter (clientsWhere search)).length (min psReq 5000)
          < page := hlt
      omega
    have h3 := Nat.mul_le_mul_right (min psReq 5000) h2
    unfold queryOffset
    omega
  have hdata : (fetchClientsOptimized tbl page (min psReq 5000) search).data = [] := by
    show (((sortByName (tbl.filter (clientsWhere search))).drop
            (queryOffset page (min psReq 5000))).take (min psReq 5000)).map clientEmit = []
    rw [List.drop_eq_nil_of_le hbound, List.take_nil]
    rfl
  refine ⟨hdata, ?_⟩
  show (fetchClientsOptimized tbl page (min psReq 5000) search).data.length = 0
  rw [hdata]
  rfl

/-- Witness for C8: page 3 of an empty table at the default size 50. -/
theorem C8_witness :
    (fetchClientsOptimized [] 3 (min 50 5000) "").pagination.page_size = min 50 5000 ∧
    min 50 5000 ≤ 5000 ∧
    (fetchClientsOptimized [] 3 (min 50 5000) "").data
      = (((sortByName (List.filter (clientsWhere "") [])).drop
            (queryOffset 3 (min 50 5000))).take (min 50 5000)).map clientEmit ∧
    queryOffset 3 (min 50 5000) = (3 - 1) * min 50 5000 ∧
    (fetchClientsOptimized [] 3 (min 50 5000) "").pagination.total_pages
      = totalPagesOf (fetchClientsOptimized [] 3 (min 50 5000) "").pagination.total_records
          (min 50 5000) ∧
    (fetchClientsOptimized [] 3 (min 50 5000) "").pagination.has_next
      = decide (3 < (fetchClientsOptimized [] 3 (min 50 5000) "").pagination.total_pages) ∧
    (fetchClientsOptimized [] 3 (min 50 5000) "").pagination.has_previous
      = decide (1 < 3) ∧
    ((fetchClientsOptimized [] 3 (min 50 5000) "").pagination.total_pages < 3 →
      (fetchClientsOptimized [] 3 (min 50 5000) "").data = [] ∧
      (fetchClientsOptimized [] 3 (min 50 5000) "").records_on_page = 0) :=
  C8_amended_pagination [] 3 50 "" (by decide) (by decide)

/-- Claim C1 (code evaluation at the failing input): with one pre-existing client
row, a sync whose insert step fails after the truncate returns a 500 error
but leaves `rrc_clients` empty, not in its pre-call state: the raw
`BEGIN`/`COMMIT` issued inside `_ultra_fast_truncate` commits the truncate
in the middle of `transaction.atomic`, so the rollback on failure cannot
restore the pre-call rows. -/
theorem C1_insert_failure_empties_table :
    ((syncPost ⟨true, false, true, true, true⟩
        { table := some "rrc_clients", data := [[("code", Value.vStr "NEW")]] }
        { tables := [("rrc_clients", [[("code", Value.vStr "OLD")]])],
          cache := [] }).1.status = 500 ∧
     (syncPost ⟨true, false, true, true, true⟩
        { table := some "rrc_clients", data := [[("code", Value.vStr "NEW")]] }
        { tables := [("rrc_clients", [[("code", Value.vStr "OLD")]])],
          cache := [] }).1.success = false) ∧
    (syncPost ⟨true, false, true, true, true⟩
        { table := some "rrc_clients", data := [[("code", Value.vStr "NEW")]] }
        { tables := [("rrc_clients", [[("code", Value.vStr "OLD")]])],
          cache := [] }).2.tables.getTable "rrc_clients" = [] ∧
    Tables.getTable [("rrc_clients", [[("code", Value.vStr "OLD")]])] "rrc_clients"
      = [[("code", Value.vStr "OLD")]] ∧
    ([[("code", Value.vStr "OLD")]] : List Record) ≠ [] := by
  refine ⟨⟨by decide, by decide⟩, by decide, by decide, by decide⟩

set_option maxRecDepth 4000 in
/-- Claim C6: every master row returned by either listing endpoint (paginated
`GetMasterView` fetch or `GetAllMasterView`) carries a computed balance that
is strictly positive and equals
`COALESCE(opening_balance,0) + COALESCE(debit,0) − COALESCE(credit,0)` over
the very fields emitted in that row; no row with balance ≤ 0 is ever
returned, unconditionally. -/
theorem C6_master_balance (tbl : List Record) (page pageSize : Nat)
    (search : String) (rec : Record)
    (h : rec ∈ (fetchMasterOptimized tbl page pageSize search).data ∨
         rec ∈ (getAllMasterView tbl search).data) :
    ∃ b : Int, rec.get "balance" = .vInt b ∧ 0 < b ∧
      b = coalesceNum (rec.get "opening_balance") + coalesceNum (rec.get "debit")
            - coalesceNum (rec.get "credit") := by
  have hmem : ∃ r, r ∈ tbl.filter (masterWhere search) ∧ rec = masterEmit r := by
    rcases h with h | h
    · have h1 : rec ∈ (((sortByName (tbl.filter (masterWhere search))).drop
          (queryOffset page pageSize)).take pageSize).map masterEmit := h
      rcases List.mem_map.mp h1 with ⟨r, hr, hrec⟩
      exact ⟨r, (sortByName_perm _).mem_iff.mp
        (List.mem_of_mem_drop (List.mem_of_mem_take hr)), hrec.symm⟩
    · have h1 : rec ∈ (sortByName (tbl.filter (masterWhere search))).map masterEmit := h
      rcases List.mem_map.mp h1 with ⟨r, hr, hrec⟩
      exact ⟨r, (sortByName_perm _).mem_iff.mp hr, hrec.symm⟩
  rcases hmem with ⟨r, hr, rfl⟩
  have hw : masterWhere search r = true := (List.mem_filter.mp hr).2
  have hbal : 0 < balanceOf r := by
    unfold masterWhere at hw
    rcases (Bool.and_eq_true _ _).mp hw with ⟨h1, _⟩
    exact of_decide_eq_true h1
  refine ⟨balanceOf r, ?_, hbal, ?_⟩
  · unfold masterEmit
    rw [Record.get_map_cols_not_mem masterColumns (fun c => r.get c) _ "balance"
      (by decide)]
    exact Record.get_cons_self _ _ _
  · unfold masterEmit
    rw [Record.get_map_cols masterColumns (fun c => r.get c) _ "opening_balance"
      (by decide)]
    rw [Record.get_map_cols masterColumns (fun c => r.get c) _ "debit" (by decide)]
    rw [Record.get_map_cols masterColumns (fun c => r.get c) _ "credit" (by decide)]
    rfl

/-- Witness for C6: one concrete master row with positive balance, returned
by the unpaginated master view. -/
theorem C6_witness :
    ∃ b : Int,
      (masterEmit [("code", Value.vStr "M1"), ("name", Value.vStr "A"),
          ("opening_balance", Value.vInt 5)]).get "balance" = .vInt b ∧ 0 < b ∧
      b = coalesceNum ((masterEmit [("code", Value.vStr "M1"),
            ("name", Value.vStr "A"),
            ("opening_balance", Value.vInt 5)]).get "opening_balance")
          + coalesceNum ((masterEmit [("code", Value.vStr "M1"),
              ("name", Value.vStr "A"),
              ("opening_balance", Value.vInt 5)]).get "debit")
          - coalesceNum ((masterEmit [("code", Value.vStr "M1"),
              ("name", Value.vStr "A"),
              ("opening_balance", Value.vInt 5)]).get "credit") :=
  C6_master_balance
    [[("code", Value.vStr "M1"), ("name", Value.vStr "A"),
      ("opening_balance", Value.vInt 5)]] 1 50 ""
    (masterEmit [("code", Value.vStr "M1"), ("name", Value.vStr "A"),
      ("opening_balance", Value.vInt 5)])
    (Or.inr (by decide))

/-- Claim C3: after a successful sync of any table, the entire cache is cleared
(`cache.clear()` inside the sync), so every subsequent read through any of
the cached endpoints (paginated clients, paginated master, products) misses
and fetches fresh from the database — no value cached before the replace is
ever served, whatever its remaining TTL. -/
theorem C3_cache_coherence (env : Env) (req : SyncRequest) (st : Srv)
    (hsucc : (syncPost env req st).1.success = true) :
    (syncPost env req st).2.cache = [] ∧
    (∀ (now : Nat) (tbl : List Record) (page psReq : Nat) (search : String)
        (ttl : Nat),
      (getClientsView now (syncPost env req st).2.cache tbl page psReq search
          ttl).1.from_cache = false ∧
      (getClientsView now (syncPost env req st).2.cache tbl page psReq search
          ttl).1.body = fetchClientsOptimized tbl page (min psReq 5000) search) ∧
    (∀ (now : Nat) (tbl : List Record) (page psReq : Nat) (search : String)
        (ttl : Nat),
      (getMasterView now (syncPost env req st).2.cache tbl page psReq search
          ttl).1.from_cache = false ∧
      (getMasterView now (syncPost env req st).2.cache tbl page psReq search
          ttl).1.body = fetchMasterOptimized tbl page (min psReq 5000) search) ∧
    (∀ (now : Nat) (tbl : List Record) (search category company brand : String)
        (ttl : Nat),
      (getAllProductsView now (syncPost env req st).2.cache tbl search category
          company brand ttl).1.from_cache = false ∧
      (getAllProductsView now (syncPost env req st).2.cache tbl search category
          company brand ttl).1.body
        = fetchProducts tbl search category company brand) := by
  have hcache : (syncPost env req st).2.cache = [] := by
    unfold syncPost at hsucc ⊢
    simp only [] at hsucc ⊢
    by_cases hmem : req.table.getD "rrc_clients" ∈ validTables
    · rw [if_pos hmem] at hsucc ⊢
      by_cases he : req.data.isEmpty = true
      · rw [if_pos he] at hsucc
        exact absurd hsucc Bool.false_ne_true
      · rw [if_neg he] at hsucc ⊢
        by_cases htr : (ultraFastTruncate env ((Db.fresh st.tables).beginStmt)
            (req.table.getD "rrc_clients")).2 = true
        · rw [if_pos htr] at hsucc ⊢
          cases hins : (ultraBulkInsert env
              (ultraFastTruncate env ((Db.fresh st.tables).beginStmt)
                (req.table.getD "rrc_clients")).1
              (req.table.getD "rrc_clients") req.data).2 with
          | none =>
            rw [hins] at hsucc
            exact absurd hsucc Bool.false_ne_true
          | some cnt => rfl
        · rw [if_neg htr] at hsucc
          exact absurd hsucc Bool.false_ne_true
    · rw [if_neg hmem] at hsucc
      exact absurd hsucc Bool.false_ne_true
  rw [hcache]
  refine ⟨rfl, ?_, ?_, ?_⟩
  · intro now tbl page psReq search ttl
    rw [getClientsView_empty_cache]
    exact ⟨rfl, rfl⟩
  · intro now tbl page psReq search ttl
    rw [getMasterView_empty_cache]
    exact ⟨rfl, rfl⟩
  · intro now tbl search category company brand ttl
    rw [getAllProductsView_empty_cache]
    exact ⟨rfl, rfl⟩

/-- Witness for C3: a concrete successful sync with a pre-populated cache,
followed by a concrete clients read that misses. -/
theorem C3_witness :
    (syncPost ⟨false, false, false, false, false⟩
        { table := some "acc_product", data := [[("code", Value.vStr "P1")]] }
        { tables := [], cache := [("stale", CacheVal.time 5)] }).2.cache = [] ∧
    (getClientsView 0
        (syncPost ⟨false, false, false, false, false⟩
          { table := some "acc_product", data := [[("code", Value.vStr "P1")]] }
          { tables := [], cache := [("stale", CacheVal.time 5)] }).2.cache
        [] 1 50 "" 15).1.from_cache = false :=
  ⟨(C3_cache_coherence ⟨false, false, false, false, false⟩
      { table := some "acc_product", data := [[("code", Value.vStr "P1")]] }
      { tables := [], cache := [("stale", CacheVal.time 5)] } (by decide)).1,
   ((C3_cache_coherence ⟨false, false, false, false, false⟩
      { table := some "acc_product", data := [[("code", Value.vStr "P1")]] }
      { tables := [], cache := [("stale", CacheVal.time 5)] } (by decide)).2.1
      0 [] 1 50 "" 15).1⟩

/-- Claim C2 (amended): for a valid non-empty record set (full column set per the
table schema, scalar values conforming to the column types) and any
environment under which the sync succeeds — whichever of the three insertion
strategies (COPY, multi-row VALUES, executemany) that makes succeed — the
reported `records_processed` equals the number of records, and reading all
of the table back (unpaginated, no filter) returns, as an order-independent
set: exactly the records for `rrc_clients` and `acc_product`, and for
`acc_master` exactly the records with computed balance > 0 (each with the
appended `balance` column) — the master read path's standing balance filter
hides the rest, which is where the claim as stated fails. -/
theorem C2_replace_correctness (env : Env) (st : Srv) (tn : String)
    (records : List Record) (now ttl : Nat)
    (hcols : ∀ r ∈ records, r.map Prod.fst = tableColumns tn)
    (hconf : ∀ r ∈ records, recordConforms tn r = true)
    (hsucc : (syncPost env ⟨some tn, records⟩ st).1.success = true) :
    (syncPost env ⟨some tn, records⟩ st).1.records_processed = records.length ∧
    (tn = "rrc_clients" →
      ((getAllClientsView
          ((syncPost env ⟨some tn, records⟩ st).2.tables.getTable tn) "").data).Perm
        records) ∧
    (tn = "acc_product" →
      ((getAllProductsView now (syncPost env ⟨some tn, records⟩ st).2.cache
          ((syncPost env ⟨some tn, records⟩ st).2.tables.getTable tn)
          "" "" "" "" ttl).1.body.data).Perm records) ∧
    (tn = "acc_master" →
      ((getAllMasterView
          ((syncPost env ⟨some tn, records⟩ st).2.tables.getTable tn) "").data).Perm
        ((records.filter (fun r => decide (0 < balanceOf r))).map
          (fun r => r ++ [("balance", Value.vInt (balanceOf r))]))) := by
  obtain ⟨htbl, hcnt, hcache⟩ := syncPost_success_eq env st tn records hcols hconf hsucc
  refine ⟨hcnt, ?_, ?_, ?_⟩
  · intro htn
    subst htn
    rw [htbl]
    unfold getAllClientsView
    simp only []
    rw [List.filter_eq_self.mpr (fun r _ => clientsWhere_empty r)]
    have hmapeq : (sortByName records).map clientEmit = (sortByName records).map id := by
      apply List.map_congr_left
      intro r hr
      have hrm : r ∈ records := (sortByName_perm records).mem_iff.mp hr
      rw [clientEmit_id r (hcols r hrm) (hconf r hrm)]
      rfl
    rw [hmapeq, List.map_id]
    exact sortByName_perm records
  · intro htn
    subst htn
    rw [htbl, hcache, getAllProductsView_empty_cache]
    unfold fetchProducts
    simp only []
    rw [List.filter_eq_self.mpr (fun r _ => productsWhere_empty r)]
    have hmapeq : (sortByName records).map productEmit
        = (sortByName records).map id := by
      apply List.map_congr_left
      intro r hr
      have hrm : r ∈ records := (sortByName_perm records).mem_iff.mp hr
      rw [productEmit_id r (hcols r hrm)]
      rfl
    rw [hmapeq, List.map_id]
    exact sortByName_perm records
  · intro htn
    subst htn
    rw [htbl]
    unfold getAllMasterView
    simp only []
    rw [List.filter_congr (fun r _ => masterWhere_empty r)]
    have hmapeq : (sortByName (records.filter (fun r => decide (0 < balanceOf r)))).map
          masterEmit
        = (sortByName (records.filter (fun r => decide (0 < balanceOf r)))).map
          (fun r => r ++ [("balance", Value.vInt (balanceOf r))]) := by
      apply List.map_congr_left
      intro r hr
      have hrm : r ∈ records :=
        List.mem_of_mem_filter
          ((sortByName_perm (records.filter (fun r => decide (0 < balanceOf r)))).mem_iff.mp hr)
      exact masterEmit_eq r (hcols r hrm)
    rw [hmapeq]
    exact (sortByName_perm _).map _

/-- Witness for C2: a concrete successful products sync (VALUES strategy)
of two full-column records, read back exactly. -/
theorem C2_witness :
    (syncPost ⟨false, false, false, false, false⟩
        ⟨some "acc_product", [prodRec1, prodRec2]⟩
        { tables := [], cache := [] }).1.records_processed
      = ([prodRec1, prodRec2] : List Record).length ∧
    ((getAllProductsView 0
        (syncPost ⟨false, false, false, false, false⟩
          ⟨some "acc_product", [prodRec1, prodRec2]⟩
          { tables := [], cache := [] }).2.cache
        ((syncPost ⟨false, false, false, false, false⟩
          ⟨some "acc_product", [prodRec1, prodRec2]⟩
          { tables := [], cache := [] }).2.tables.getTable "acc_product")
        "" "" "" "" 15).1.body.data).Perm [prodRec1, prodRec2] :=
  ⟨(C2_replace_correctness ⟨false, false, false, false, false⟩
      { tables := [], cache := [] } "acc_product" [prodRec1, prodRec2] 0 15
      (by decide) (by decide) (by decide)).1,
   ((C2_replace_correctness ⟨false, false, false, false, false⟩
      { tables := [], cache := [] } "acc_product" [prodRec1, prodRec2] 0 15
      (by decide) (by decide) (by decide)).2.2.1 rfl)⟩

/-- Claim C2 counterexample: syncing `acc_master` with one valid full-column
record whose computed balance is −5 succeeds with `records_processed = 1`,
yet reading all of the table back through the master read endpoint returns
no rows at all — not the synced record set, because of the standing
`balance > 0` filter. -/
theorem C2_counterexample :
    (syncPost ⟨false, false, false, false, false⟩
        ⟨some "acc_master", [masterRecNeg]⟩
        { tables := [], cache := [] }).1.success = true ∧
    (syncPost ⟨false, false, false, false, false⟩
        ⟨some "acc_master", [masterRecNeg]⟩
        { tables := [], cache := [] }).1.records_processed = 1 ∧
    (getAllMasterView
        ((syncPost ⟨false, false, false, false, false⟩
          ⟨some "acc_master", [masterRecNeg]⟩
          { tables := [], cache := [] }).2.tables.getTable "acc_master") "").data
      = [] ∧
    ([masterRecNeg] : List Record).length = 1 := by
  refine ⟨by decide, by decide, by decide, by decide⟩
